import Mathlib

/-!
# StrDateRangePicker: selection, availability and pricing logic

A shallow embedding of the logic of `src/date-range-picker/date-picker.js`
(class `StrDateRangePicker`): `toLocalISO`, `getBusyState`, `hasOverlap`,
`handleDateClick`, `getPriceForDate` and `dispatchSelectionEvent`, together
with the JavaScript built-ins these methods call.

Conventions of the embedding.

* A JS `Date` handled by the component is always a local midnight (the grid
  builds every day with `new Date(year, month, d)`), so a `Date` is stored as
  the number of its calendar day, counted from 0000-03-01 of the proleptic
  Gregorian calendar.  The local zone is idealised as having no clock
  changes, so consecutive midnights are exactly `oneDay` milliseconds apart.
* Prices, discounts and totals are JS Numbers, that is IEEE 754 doubles: their
  arithmetic is the type `JSNumber`, where every sum, difference and product
  is rounded to the nearest double, ties to the even mantissa, with overflow
  to the infinities and with NaN.  The numbers of a price rule set are
  doubles, written as the rationals they are equal to.  Day counts and
  timestamps are integers far below 2^53, on which double arithmetic is exact.
* JS strings are lists of characters compared unit by unit.
-/

namespace StrDateRangePicker

/-! ## JavaScript built-ins -/

/-- A JS `Date` at local midnight: `day` counts the calendar days elapsed since
0000-03-01 (so day 719468 is 1970-01-01 and day 739251 is 2024-03-01). -/
structure Date where
  day : Nat
deriving DecidableEq, Repr

namespace Date

/-- Number of complete 400-year cycles before the day. -/
def n400 (t : Date) : Nat := t.day / 146097

/-- Day within the 400-year cycle. -/
def r400 (t : Date) : Nat := t.day % 146097

/-- Number of complete centuries inside the 400-year cycle (the last century
has one more day). -/
def n100 (t : Date) : Nat := min (t.r400 / 36524) 3

/-- Day within the century. -/
def r100 (t : Date) : Nat := t.r400 - 36524 * t.n100

/-- Number of complete 4-year cycles inside the century. -/
def n4 (t : Date) : Nat := t.r100 / 1461

/-- Day within the 4-year cycle. -/
def r4 (t : Date) : Nat := t.r100 % 1461

/-- Number of complete years inside the 4-year cycle (the last year has one
more day). -/
def n1 (t : Date) : Nat := min (t.r4 / 365) 3

/-- Day within the year that starts on 1 March (0 is 1 March). -/
def doy (t : Date) : Nat := t.r4 - 365 * t.n1

/-- The year that starts on 1 March and contains the day. -/
def marchYear (t : Date) : Nat := 400 * t.n400 + 100 * t.n100 + 4 * t.n4 + t.n1

/-- Month index counted from March (0 is March, 11 is February). -/
def mp (t : Date) : Nat := (5 * t.doy + 2) / 153

/-- JS `getDate()`: the day of the month, 1 to 31. -/
def getDate (t : Date) : Nat := t.doy - (153 * t.mp + 2) / 5 + 1

/-- JS `getMonth()`: the month index, 0 (January) to 11 (December). -/
def getMonth (t : Date) : Nat := if t.mp < 10 then t.mp + 2 else t.mp - 10

/-- JS `getFullYear()`. -/
def getFullYear (t : Date) : Nat := if t.mp < 10 then t.marchYear else t.marchYear + 1

/-- JS `getDay()`: the weekday, 0 (Sunday) to 6 (Saturday); 0000-03-01 is a
Wednesday. -/
def getDay (t : Date) : Nat := (t.day + 3) % 7

/-- JS `getTime()` / `valueOf()`: milliseconds since 1970-01-01, which is day
719468. -/
def getTime (t : Date) : Int := ((t.day : Int) - 719468) * 86400000

/-- The effect of JS `current.setDate(current.getDate() + 1)`: the next calendar day. -/
def nextDay (t : Date) : Date := ⟨t.day + 1⟩

/-- The date as the eight-digit number YYYYMMDD (month counted from 1): the
order of these numbers is the order of the (year, month, day) triples. -/
def key (t : Date) : Nat := t.getFullYear * 10000 + (t.getMonth + 1) * 100 + t.getDate

end Date

/-- JS `new Date(year, month, date)` for a month index 0 to 11 and a day of the
month: the local midnight of that calendar day. -/
def newDate (year month date : Nat) : Date :=
  let y := if month < 2 then year - 1 else year
  let m := if month < 2 then month + 10 else month - 2
  ⟨365 * y + y / 4 - y / 100 + y / 400 + (153 * m + 2) / 5 + date - 1⟩

/-- JS relational comparison `s < t` of two strings, on their character lists:
lexicographic, a proper prefix being smaller. -/
def strLt : List Char → List Char → Bool
  | [], [] => false
  | [], _ :: _ => true
  | _ :: _, [] => false
  | a :: as, b :: bs =>
    if a.toNat < b.toNat then true
    else if a.toNat = b.toNat then strLt as bs
    else false

/-- JS `s < t` on strings. -/
def jsLt (s t : String) : Bool := strLt s.data t.data

/-- JS `s.padStart(targetLength, c)` for a one-character pad string. -/
def padStart (s : String) (targetLength : Nat) (c : Char) : String :=
  ⟨List.replicate (targetLength - s.data.length) c ++ s.data⟩

/-- JS `Math.round` of an exactly known value, as an integer: the nearest
integer, halves rounded up.  It is used for the day count, where the quotient
of the two integers is exact in doubles. -/
def jsRound (x : ℚ) : Int := ⌊x + 1 / 2⌋

/-- JS truthiness of a numeric property that may be absent: absent and 0 are falsy. -/
def truthy : Option ℚ → Bool
  | none => false
  | some v => decide (v ≠ 0)

/-- The constant `oneDay = 24 * 60 * 60 * 1000` of the source. -/
def oneDay : ℚ := 24 * 60 * 60 * 1000

/-- A JS Number: a finite value (the sign of zero is not tracked), one of the
two infinities, or NaN. -/
inductive JSNumber where
  | fin (q : ℚ)
  | posInf
  | negInf
  | nan
deriving DecidableEq

/-- The integer nearest to `y`, a tie going to the even one. -/
def roundHalfEven (y : ℚ) : Int :=
  if y - ⌊y⌋ < 1 / 2 then ⌊y⌋
  else if 1 / 2 < y - ⌊y⌋ then ⌊y⌋ + 1
  else if ⌊y⌋ % 2 = 0 then ⌊y⌋ else ⌊y⌋ + 1

/-- Binary exponent of the last mantissa bit of a double of the magnitude of
`x`: 52 places below the leading bit, and never below the exponent -1074 of the
subnormal doubles. -/
def ulpExp (x : ℚ) : Int := max (Int.log 2 |x| - 52) (-1074)

/-- The value `x` rounded to 53 significant bits (to a multiple of 2^-1074 in
the subnormal range), ties to even: the nearest double when it is finite. -/
def double (x : ℚ) : ℚ := (roundHalfEven (x / 2 ^ ulpExp x) : ℚ) * 2 ^ ulpExp x

/-- The JS Number that results from the exact value `x`: the nearest double, or
an infinity when that rounding reaches 2^1024.  A double is read as itself; a
decimal such as 19.99 is read as the double a JS literal or `JSON.parse` gives. -/
def toNumber (x : ℚ) : JSNumber :=
  if 2 ^ 1024 ≤ double x then JSNumber.posInf
  else if double x ≤ -2 ^ 1024 then JSNumber.negInf
  else JSNumber.fin (double x)

/-- JS `a + b` on Numbers. -/
def jsAdd : JSNumber → JSNumber → JSNumber
  | JSNumber.fin a, JSNumber.fin b => toNumber (a + b)
  | JSNumber.nan, _ => JSNumber.nan
  | _, JSNumber.nan => JSNumber.nan
  | JSNumber.posInf, JSNumber.negInf => JSNumber.nan
  | JSNumber.negInf, JSNumber.posInf => JSNumber.nan
  | JSNumber.posInf, _ => JSNumber.posInf
  | _, JSNumber.posInf => JSNumber.posInf
  | JSNumber.negInf, _ => JSNumber.negInf
  | _, JSNumber.negInf => JSNumber.negInf

/-- JS `a - b` on Numbers. -/
def jsSub : JSNumber → JSNumber → JSNumber
  | JSNumber.fin a, JSNumber.fin b => toNumber (a - b)
  | JSNumber.nan, _ => JSNumber.nan
  | _, JSNumber.nan => JSNumber.nan
  | JSNumber.posInf, JSNumber.posInf => JSNumber.nan
  | JSNumber.negInf, JSNumber.negInf => JSNumber.nan
  | JSNumber.posInf, _ => JSNumber.posInf
  | JSNumber.negInf, _ => JSNumber.negInf
  | _, JSNumber.posInf => JSNumber.negInf
  | _, JSNumber.negInf => JSNumber.posInf

/-- The infinity with the sign of `a`, or NaN when `a` is 0: the product of a
finite `a` and positive infinity. -/
def infTimes (a : ℚ) : JSNumber :=
  if a = 0 then JSNumber.nan else if 0 < a then JSNumber.posInf else JSNumber.negInf

/-- JS `a * b` on Numbers. -/
def jsMul : JSNumber → JSNumber → JSNumber
  | JSNumber.fin a, JSNumber.fin b => toNumber (a * b)
  | JSNumber.nan, _ => JSNumber.nan
  | _, JSNumber.nan => JSNumber.nan
  | JSNumber.fin a, JSNumber.posInf => infTimes a
  | JSNumber.fin a, JSNumber.negInf => infTimes (-a)
  | JSNumber.posInf, JSNumber.fin b => infTimes b
  | JSNumber.negInf, JSNumber.fin b => infTimes (-b)
  | JSNumber.posInf, JSNumber.posInf => JSNumber.posInf
  | JSNumber.posInf, JSNumber.negInf => JSNumber.negInf
  | JSNumber.negInf, JSNumber.posInf => JSNumber.negInf
  | JSNumber.negInf, JSNumber.negInf => JSNumber.posInf

/-- JS `Math.round` on Numbers: the nearest integer, halves rounded up; the
infinities and NaN are returned unchanged. -/
def mathRound : JSNumber → JSNumber
  | JSNumber.fin q => JSNumber.fin (⌊q + 1 / 2⌋ : Int)
  | x => x

/-! ## Component state -/

/-- One element of `this.busyDates`: two day strings `YYYY-MM-DD`. -/
structure BusyRange where
  startDate : String
  endDate : String
deriving DecidableEq, Repr

/-- The `status` computed by `getBusyState`: the strings none, start, end, full. -/
inductive Status where
  | none
  | start
  | end_
  | full
deriving DecidableEq, Repr

/-- The object `this.priceRules`: `days` and `dates` are key/value tables (a
missing key reads as `none`), each of which may itself be absent. -/
structure PriceRules where
  default : ℚ
  days : Option (String → Option ℚ)
  dates : Option (String → Option ℚ)
  discount_week : Option ℚ
  discount_month : Option ℚ

/-- The fields of `StrDateRangePicker` read or written by the selection and
pricing methods. -/
structure Picker where
  startDate : Option Date
  endDate : Option Date
  busyDates : List BusyRange
  priceRules : Option PriceRules
  minStayDays : Int
  maxStayDays : Int

/-- The `detail` of the `selection-changed` event. -/
structure SelectionData where
  startDate : Option Date
  endDate : Option Date
  nights : Int
  fullPrice : JSNumber
  discountedPrice : JSNumber
  isComplete : Bool

/-! ## Methods -/

/-- Source `toLocalISO(date)` for a date that is present: the local calendar
day as `YYYY-MM-DD`. -/
def toLocalISO (date : Date) : String :=
  let year := date.getFullYear
  let month := padStart (toString (date.getMonth + 1)) 2 '0'
  let day := padStart (toString date.getDate) 2 '0'
  toString year ++ "-" ++ month ++ "-" ++ day

/-- Source `isSameDay(d1, d2)` for two dates that are present. -/
def isSameDay (d1 d2 : Date) : Bool :=
  d1.getFullYear = d2.getFullYear ∧ d1.getMonth = d2.getMonth ∧ d1.getDate = d2.getDate

/-- The `for` loop of `getBusyState`, started with the running `status`. -/
def busyLoop (dStr : String) : Status → List BusyRange → Status
  | status, [] => status
  | status, r :: rest =>
    if jsLt r.startDate dStr = true ∧ jsLt dStr r.endDate = true then Status.full
    else if dStr = r.startDate ∧ status = Status.end_ then Status.full
    else
      let status1 := if dStr = r.startDate then Status.start else status
      if dStr = r.endDate ∧ status1 = Status.start then Status.full
      else
        let status2 := if dStr = r.endDate then Status.end_ else status1
        busyLoop dStr status2 rest

/-- Source `getBusyState(date)`, as a function of `this.busyDates`. -/
def getBusyState (busyDates : List BusyRange) (date : Date) : Status :=
  busyLoop (toLocalISO date) Status.none busyDates

/-- Source `hasOverlap(start, end)`, as a function of `this.busyDates`. -/
def hasOverlap (busyDates : List BusyRange) (start end_ : Date) : Bool :=
  let sStr := toLocalISO start
  let eStr := toLocalISO end_
  busyDates.any fun range => jsLt sStr range.endDate && jsLt range.startDate eStr

/-- Source `handleDateClick(date)`: the new component state (the event and the
re-rendering that follow do not change it). -/
def handleDateClick (p : Picker) (date : Date) : Picker :=
  match p.startDate, p.endDate with
  | none, _ => { p with startDate := some date, endDate := none }
  | some _, some _ => { p with startDate := some date, endDate := none }
  | some startDate, none =>
    if date.getTime < startDate.getTime then
      { p with startDate := some date }
    else
      let nights := jsRound (((date.getTime - startDate.getTime : Int) : ℚ) / oneDay)
      if nights < p.minStayDays then
        { p with startDate := some date, endDate := none }
      else if nights > p.maxStayDays then
        { p with startDate := some date, endDate := none }
      else if hasOverlap p.busyDates startDate date = true then
        { p with startDate := some date, endDate := none }
      else
        { p with endDate := some date }

/-- Value of `rules.dates[key]` or `rules.days[key]`: `none` when the table or
the key is absent. -/
def lookup (table : Option (String → Option ℚ)) (k : String) : Option ℚ :=
  table.bind fun t => t k

/-- The `dateKey` computed by `getPriceForDate`: month and day of the month,
each padded to two digits, joined by a dash. -/
def dateKeyOf (date : Date) : String :=
  let m := padStart (toString (date.getMonth + 1)) 2 '0'
  let d := padStart (toString date.getDate) 2 '0'
  m ++ "-" ++ d

/-- Source `getPriceForDate(date)` when `this.priceRules` is set. -/
def priceOf (rules : PriceRules) (date : Date) : ℚ :=
  let dateKey := dateKeyOf date
  if truthy (lookup rules.dates dateKey) = true then
    (lookup rules.dates dateKey).getD rules.default
  else
    let day := date.getDay
    if truthy (lookup rules.days (toString day)) = true then
      (lookup rules.days (toString day)).getD rules.default
    else rules.default

/-- Source `getPriceForDate(date)`: `none` is the `null` returned when there
are no price rules. -/
def getPriceForDate (priceRules : Option PriceRules) (date : Date) : Option ℚ :=
  priceRules.map fun rules => priceOf rules date

/-- The `while (current < end)` loop of `dispatchSelectionEvent`: adds the
price of `current` and moves to the next day. -/
def sumLoop (rules : PriceRules) (end_ : Date) (current : Date) (total : JSNumber) :
    JSNumber :=
  if current.getTime < end_.getTime then
    sumLoop rules end_ current.nextDay (jsAdd total (toNumber (priceOf rules current)))
  else total
termination_by end_.day - current.day
decreasing_by
  simp only [Date.getTime, Date.nextDay] at *
  omega

/-- Source `dispatchSelectionEvent()`: the `detail` object of the event it
dispatches. -/
def dispatchSelectionEvent (p : Picker) : SelectionData :=
  match p.startDate, p.endDate, p.priceRules with
  | some start, some end_, some rules =>
    let total := sumLoop rules end_ start (JSNumber.fin 0)
    let nights := jsRound (((end_.getTime - start.getTime : Int) : ℚ) / oneDay)
    let finalTotal :=
      if nights ≥ 28 ∧ truthy rules.discount_month = true then
        jsMul total (jsSub (toNumber 1) (toNumber (rules.discount_month.getD 0)))
      else if nights ≥ 7 ∧ truthy rules.discount_week = true then
        jsMul total (jsSub (toNumber 1) (toNumber (rules.discount_week.getD 0)))
      else total
    { startDate := some start, endDate := some end_, nights := nights, fullPrice := total,
      discountedPrice := mathRound finalTotal, isComplete := true }
  | _, _, _ =>
    { startDate := p.startDate, endDate := p.endDate, nights := 0,
      fullPrice := JSNumber.fin 0, discountedPrice := JSNumber.fin 0, isComplete := false }

/-! ## Vocabulary of the specification -/

/-- Days between two calendar days (the specification's `daysBetween`):
positive when `b` is later than `a`. -/
def daysBetween (a b : Date) : Int := (b.day : Int) - (a.day : Int)

/-- The transition `selectDay(d)` in the specification's words, on the pair
(start, end): a partial selection is completed when `d` is not before the start,
the stay length is within bounds and nothing overlaps; every other case starts
a new selection at `d`. -/
def selectDaySpec (busy : List BusyRange) (minStayDays maxStayDays : Int)
    (sel : Option Date × Option Date) (d : Date) : Option Date × Option Date :=
  match sel with
  | (some s, none) =>
    if s.day ≤ d.day ∧ minStayDays ≤ daysBetween s d ∧ daysBetween s d ≤ maxStayDays ∧
        hasOverlap busy s d = false then (some s, some d)
    else (some d, none)
  | _ => (some d, none)

/-- The busy range of a reservation from calendar day `s` to calendar day `e`,
as stored in `this.busyDates`. -/
def busyRange (s e : Date) : BusyRange := ⟨toLocalISO s, toLocalISO e⟩

/-- The list `this.busyDates` holding the reservations `l`, each given by its
first and last calendar day. -/
def toBusyDates (l : List (Date × Date)) : List BusyRange :=
  l.map fun i => busyRange i.1 i.2

/-- Calendar order of the specification: the lexicographic order of the
(year, month, day) triples. -/
def calendarBefore (a b : Date) : Prop :=
  a.getFullYear < b.getFullYear ∨
    (a.getFullYear = b.getFullYear ∧
      (a.getMonth < b.getMonth ∨ (a.getMonth = b.getMonth ∧ a.getDate < b.getDate)))

instance (a b : Date) : Decidable (calendarBefore a b) := by
  unfold calendarBefore; infer_instance

/-- A calendar day whose year is written with four digits. -/
def FourDigitYear (t : Date) : Prop := 1000 ≤ t.getFullYear ∧ t.getFullYear ≤ 9999

instance (t : Date) : Decidable (FourDigitYear t) := by
  unfold FourDigitYear; infer_instance

/-! ## Time arithmetic -/

theorem getTime_lt_iff (a b : Date) : a.getTime < b.getTime ↔ a.day < b.day := by
  unfold Date.getTime; omega

theorem jsRound_intCast (n : Int) : jsRound (n : ℚ) = n := by
  unfold jsRound
  rw [Int.floor_eq_iff]
  constructor
  · linarith
  · linarith

theorem nights_eq (a b : Date) :
    jsRound (((b.getTime - a.getTime : Int) : ℚ) / oneDay) = daysBetween a b := by
  have h : (((b.getTime - a.getTime : Int) : ℚ) / oneDay) = ((daysBetween a b : Int) : ℚ) := by
    unfold Date.getTime daysBetween oneDay
    field_simp
    ring
  rw [h, jsRound_intCast]

theorem handleDateClick_selection (p : Picker) (d : Date) :
    ((handleDateClick p d).startDate, (handleDateClick p d).endDate) =
      selectDaySpec p.busyDates p.minStayDays p.maxStayDays (p.startDate, p.endDate) d := by
  unfold handleDateClick selectDaySpec
  rcases hs : p.startDate with _ | s <;> rcases he : p.endDate with _ | e <;> simp only []
  simp only [nights_eq, getTime_lt_iff]
  by_cases h1 : d.day < s.day
  · have : ¬ s.day ≤ d.day := by omega
    simp [h1, this, he]
  · have h1b : s.day ≤ d.day := by omega
    by_cases h2 : daysBetween s d < p.minStayDays
    · have : ¬ p.minStayDays ≤ daysBetween s d := by omega
      simp [h1, h2, this]
    · have h2b : p.minStayDays ≤ daysBetween s d := by omega
      by_cases h3 : daysBetween s d > p.maxStayDays
      · have : ¬ daysBetween s d ≤ p.maxStayDays := by omega
        simp [h1, h2, h3, this]
      · have h3b : daysBetween s d ≤ p.maxStayDays := by omega
        cases h4 : hasOverlap p.busyDates s d <;> simp [h1, h2, h3, h1b, h2b, h3b, h4, hs]


/-- Claim C1. For every selection state, busy list, stay bounds and clicked day,
the selection after `handleDateClick` is the specified transition: the old
start with the clicked day as end exactly when the selection was partial, the
day is not before the start, the stay length is within bounds and nothing
overlaps; otherwise a new selection starting at the clicked day. -/
theorem handleDateClick_eq_selectDaySpec (p : Picker) (d : Date) :
    ((handleDateClick p d).startDate, (handleDateClick p d).endDate) =
      selectDaySpec p.busyDates p.minStayDays p.maxStayDays (p.startDate, p.endDate) d :=
  handleDateClick_selection p d

theorem handleDateClick_config (p : Picker) (d : Date) :
    (handleDateClick p d).busyDates = p.busyDates ∧
    (handleDateClick p d).minStayDays = p.minStayDays ∧
    (handleDateClick p d).maxStayDays = p.maxStayDays ∧
    (handleDateClick p d).priceRules = p.priceRules := by
  unfold handleDateClick
  split
  · simp
  · simp
  · dsimp only
    split_ifs <;> simp

theorem handleDateClick_ordered (p : Picker) (d : Date) (hmin : 1 ≤ p.minStayDays) :
    ∀ e, (handleDateClick p d).endDate = some e →
      ∃ s, (handleDateClick p d).startDate = some s ∧ s.day < e.day := by
  intro e he
  have h := handleDateClick_selection p d
  rw [he] at h
  unfold selectDaySpec at h
  split at h
  · split_ifs at h with hc
    · simp only [Prod.mk.injEq, Option.some.injEq] at h
      obtain ⟨h1, h2⟩ := h
      refine ⟨_, h1, ?_⟩
      subst h2
      have := hc.2.1
      unfold daysBetween at this
      omega
    · simp at h
  · simp at h

theorem foldl_config (clicks : List Date) (p : Picker) :
    (clicks.foldl handleDateClick p).minStayDays = p.minStayDays := by
  induction clicks generalizing p with
  | nil => rfl
  | cons d ds ih => rw [List.foldl_cons, ih, (handleDateClick_config p d).2.1]

/-- Claim C3. Starting from the empty selection with `minStayDays` at least 1,
after any finite sequence of clicks an end that is set comes with a start that
is set and is an earlier calendar day. -/
theorem selection_invariant (p : Picker) (clicks : List Date)
    (hmin : 1 ≤ p.minStayDays) :
    ∀ e, (clicks.foldl handleDateClick { p with startDate := none, endDate := none }).endDate
        = some e →
      ∃ s, (clicks.foldl handleDateClick { p with startDate := none, endDate := none }).startDate
        = some s ∧ s.day < e.day := by
  rcases List.eq_nil_or_concat clicks with h | ⟨ds, d, h⟩
  · subst h; intro e h; simp at h
  · subst h
    rw [List.concat_eq_append, List.foldl_append, List.foldl_cons, List.foldl_nil]
    apply handleDateClick_ordered
    rw [foldl_config]; exact hmin

theorem selection_invariant_witness :
    (1 : Int) ≤ 3 ∧
    ∀ e, ([newDate 2024 2 1, newDate 2024 2 3, newDate 2024 2 8].foldl handleDateClick
        ⟨none, none, [], none, 3, 28⟩).endDate = some e →
      ∃ s, ([newDate 2024 2 1, newDate 2024 2 3, newDate 2024 2 8].foldl handleDateClick
        ⟨none, none, [], none, 3, 28⟩).startDate = some s ∧ s.day < e.day :=
  ⟨by decide, selection_invariant ⟨none, none, [], none, 3, 28⟩ _ (by decide)⟩


/-! ## Decimal rendering -/

theorem digitChar_toNat (x : Nat) (h : x < 10) : (Nat.digitChar x).toNat = 48 + x := by
  interval_cases x <;> rfl

theorem toString_one_digit (n : Nat) (h : n < 10) :
    (toString n).data = [Nat.digitChar n] := by
  show (Nat.repr n).data = _
  unfold Nat.repr Nat.toDigits
  rw [Nat.toDigitsCore]
  have h1 : n / 10 = 0 := by omega
  have h2 : n % 10 = n := by omega
  simp [h1, h2, List.asString]

theorem toString_two_digits (n : Nat) (h1 : 10 ≤ n) (h2 : n < 100) :
    (toString n).data = [Nat.digitChar (n / 10), Nat.digitChar (n % 10)] := by
  show (Nat.repr n).data = _
  unfold Nat.repr Nat.toDigits
  obtain ⟨k, rfl⟩ : ∃ k, n = k + 1 := ⟨n - 1, by omega⟩
  rw [Nat.toDigitsCore, Nat.toDigitsCore]
  have e1 : ¬ (k + 1) / 10 = 0 := by omega
  have e2 : (k + 1) / 10 / 10 = 0 := by omega
  have e3 : (k + 1) / 10 % 10 = (k + 1) / 10 := by omega
  simp [e1, e2, e3, List.asString]

theorem toString_four_digits (n : Nat) (h1 : 1000 ≤ n) (h2 : n < 10000) :
    (toString n).data = [Nat.digitChar (n / 1000), Nat.digitChar (n / 100 % 10),
      Nat.digitChar (n / 10 % 10), Nat.digitChar (n % 10)] := by
  show (Nat.repr n).data = _
  unfold Nat.repr Nat.toDigits
  obtain ⟨k, rfl⟩ : ∃ k, n = k + 3 := ⟨n - 3, by omega⟩
  rw [Nat.toDigitsCore, Nat.toDigitsCore, Nat.toDigitsCore, Nat.toDigitsCore]
  have e1 : ¬ (k + 3) / 10 = 0 := by omega
  have e2 : ¬ (k + 3) / 10 / 10 = 0 := by omega
  have e3 : ¬ (k + 3) / 10 / 10 / 10 = 0 := by omega
  have e4 : (k + 3) / 10 / 10 / 10 / 10 = 0 := by omega
  have e5 : (k + 3) / 10 / 10 / 10 % 10 = (k + 3) / 1000 := by omega
  have e6 : (k + 3) / 10 / 10 % 10 = (k + 3) / 100 % 10 := by omega
  simp [e1, e2, e3, e4, e5, e6, List.asString]

theorem padStart_two (n : Nat) (h : n < 100) :
    (padStart (toString n) 2 '0').data = [Nat.digitChar (n / 10), Nat.digitChar (n % 10)] := by
  unfold padStart
  by_cases h10 : n < 10
  · rw [toString_one_digit n h10]
    have h1 : n / 10 = 0 := by omega
    have h2 : n % 10 = n := by omega
    simp [h1, h2]
    rfl
  · rw [toString_two_digits n (by omega) h]
    simp

/-! ## Calendar facts -/

/-- Fixed points of the calendar model: the epoch of `getTime` is Thursday
1970-01-01, 2024-03-03 is a Sunday, 2024 and 2000 have a 29 February, 1900 has
none, and a year ends on 31 December. -/
theorem calendar_anchors :
    (newDate 1970 0 1).getTime = 0 ∧ (newDate 1970 0 1).getDay = 4 ∧
    toLocalISO (newDate 1970 0 1) = "1970-01-01" ∧
    (newDate 2024 2 3).getDay = 0 ∧
    toLocalISO (newDate 2024 1 28).nextDay = "2024-02-29" ∧
    toLocalISO (newDate 2000 1 28).nextDay = "2000-02-29" ∧
    toLocalISO (newDate 1900 1 28).nextDay = "1900-03-01" ∧
    toLocalISO (newDate 2023 11 31).nextDay = "2024-01-01" ∧
    (newDate 2024 11 25).getMonth = 11 ∧ (newDate 2024 11 25).getDate = 25 := by
  decide

theorem doy_le (t : Date) : t.doy ≤ 365 := by
  unfold Date.doy Date.n1 Date.r4 Date.r100 Date.n100 Date.r400; omega

theorem mp_le (t : Date) : t.mp ≤ 11 := by
  have := doy_le t; unfold Date.mp; omega

theorem getDate_bounds (t : Date) : 1 ≤ t.getDate ∧ t.getDate ≤ 31 := by
  have := doy_le t; unfold Date.getDate Date.mp; omega

theorem getMonth_le (t : Date) : t.getMonth ≤ 11 := by
  have := mp_le t; unfold Date.getMonth; split <;> omega

theorem day_decomposition (t : Date) :
    t.day = 146097 * t.n400 + 36524 * t.n100 + 1461 * t.n4 + 365 * t.n1 + t.doy ∧
    t.n100 ≤ 3 ∧ t.n4 ≤ 24 ∧ t.n1 ≤ 3 ∧ (t.n1 < 3 → t.doy ≤ 364) ∧
    (t.n100 < 3 → t.n4 = 24 → t.n1 < 3 ∨ t.doy ≤ 364) := by
  unfold Date.doy Date.n1 Date.r4 Date.n4 Date.r100 Date.n100 Date.r400 Date.n400; omega

theorem marchYear_mono (a b : Date) (h : a.day < b.day) :
    a.marchYear < b.marchYear ∨ (a.marchYear = b.marchYear ∧ a.doy < b.doy) := by
  have ha := day_decomposition a; have hb := day_decomposition b
  have ha2 := doy_le a; have hb2 := doy_le b
  unfold Date.marchYear
  rcases Nat.lt_trichotomy a.n400 b.n400 with h1 | h1 | h1
  · omega
  · rcases Nat.lt_trichotomy a.n100 b.n100 with h2 | h2 | h2
    · omega
    · rcases Nat.lt_trichotomy a.n4 b.n4 with h3 | h3 | h3
      · omega
      · omega
      · omega
    · omega
  · omega

theorem mp_mono (x y : Nat) (h : x < y) :
    (5 * x + 2) / 153 < (5 * y + 2) / 153 ∨
    ((5 * x + 2) / 153 = (5 * y + 2) / 153 ∧
      x - (153 * ((5 * x + 2) / 153) + 2) / 5 < y - (153 * ((5 * y + 2) / 153) + 2) / 5) := by
  omega

theorem key_mono (a b : Date) (h : a.day < b.day) : a.key < b.key := by
  have h1 := marchYear_mono a b h
  have ha := doy_le a; have hb := doy_le b
  have hma := mp_le a; have hmb := mp_le b
  have hda := getDate_bounds a; have hdb := getDate_bounds b
  have h2 : a.doy < b.doy → a.mp < b.mp ∨ (a.mp = b.mp ∧ a.getDate < b.getDate) := by
    intro h; have := mp_mono _ _ h; unfold Date.getDate Date.mp; omega
  unfold Date.key Date.getFullYear Date.getMonth
  split <;> split <;> omega

theorem key_lt_iff (a b : Date) : a.key < b.key ↔ a.day < b.day := by
  constructor
  · intro h
    rcases Nat.lt_trichotomy a.day b.day with h1 | h1 | h1
    · exact h1
    · have : a = b := by cases a; cases b; simp_all
      subst this; omega
    · have := key_mono b a h1; omega
  · exact key_mono a b

theorem key_eq_iff (a b : Date) : a.key = b.key ↔ a = b := by
  constructor
  · intro h
    rcases Nat.lt_trichotomy a.day b.day with h1 | h1 | h1
    · have := key_mono a b h1; omega
    · cases a; cases b; simp_all
    · have := key_mono b a h1; omega
  · rintro rfl; rfl

/-! ## Day strings -/

theorem toLocalISO_data (t : Date) (h : FourDigitYear t) :
    (toLocalISO t).data =
      [Nat.digitChar (t.getFullYear / 1000), Nat.digitChar (t.getFullYear / 100 % 10),
       Nat.digitChar (t.getFullYear / 10 % 10), Nat.digitChar (t.getFullYear % 10), '-',
       Nat.digitChar ((t.getMonth + 1) / 10), Nat.digitChar ((t.getMonth + 1) % 10), '-',
       Nat.digitChar (t.getDate / 10), Nat.digitChar (t.getDate % 10)] := by
  have hm := getMonth_le t
  have hd := getDate_bounds t
  unfold toLocalISO
  simp only [String.data_append]
  rw [toString_four_digits _ h.1 (by have := h.2; omega), padStart_two _ (by omega),
    padStart_two _ (by omega)]
  rfl

theorem strLt_cons (a b : Char) (as bs : List Char) :
    strLt (a :: as) (b :: bs) = true ↔
      a.toNat < b.toNat ∨ (a.toNat = b.toNat ∧ strLt as bs = true) := by
  rw [strLt]
  split_ifs with h1 h2
  · simp [h1]
  · simp [h2]
  · simp [h1, h2]

theorem strLt_nil : strLt [] [] = false := rfl

theorem jsLt_toLocalISO (a b : Date) (ha : FourDigitYear a) (hb : FourDigitYear b) :
    jsLt (toLocalISO a) (toLocalISO b) = true ↔ a.key < b.key := by
  have hma := getMonth_le a; have hmb := getMonth_le b
  have hda := getDate_bounds a; have hdb := getDate_bounds b
  have ha1 := ha.1; have ha2 := ha.2; have hb1 := hb.1; have hb2 := hb.2
  unfold jsLt
  rw [toLocalISO_data a ha, toLocalISO_data b hb]
  simp only [strLt_cons, strLt_nil]
  simp (disch := omega) only [digitChar_toNat, Nat.lt_irrefl, false_or, true_and, and_false,
    or_false, Bool.false_eq_true]
  unfold Date.key
  omega

theorem toLocalISO_eq_iff (a b : Date) (ha : FourDigitYear a) (hb : FourDigitYear b) :
    toLocalISO a = toLocalISO b ↔ a.key = b.key := by
  constructor
  · intro h
    have hma := getMonth_le a; have hmb := getMonth_le b
    have hda := getDate_bounds a; have hdb := getDate_bounds b
    have ha1 := ha.1; have ha2 := ha.2; have hb1 := hb.1; have hb2 := hb.2
    have h2 := congrArg String.data h
    rw [toLocalISO_data a ha, toLocalISO_data b hb] at h2
    simp only [List.cons.injEq, and_true, true_and] at h2
    obtain ⟨e1, e2, e3, e4, e5, e6, e7, e8⟩ := h2
    replace e1 := congrArg Char.toNat e1
    replace e2 := congrArg Char.toNat e2
    replace e3 := congrArg Char.toNat e3
    replace e4 := congrArg Char.toNat e4
    replace e5 := congrArg Char.toNat e5
    replace e6 := congrArg Char.toNat e6
    replace e7 := congrArg Char.toNat e7
    replace e8 := congrArg Char.toNat e8
    simp (disch := omega) only [digitChar_toNat] at e1 e2 e3 e4 e5 e6 e7 e8
    unfold Date.key
    omega
  · intro h
    rw [(key_eq_iff a b).1 h]

theorem jsLt_toLocalISO_iff (a b : Date) (ha : FourDigitYear a) (hb : FourDigitYear b) :
    jsLt (toLocalISO a) (toLocalISO b) = true ↔ a.day < b.day :=
  (jsLt_toLocalISO a b ha hb).trans (key_lt_iff a b)

theorem toLocalISO_inj (a b : Date) (ha : FourDigitYear a) (hb : FourDigitYear b) :
    toLocalISO a = toLocalISO b ↔ a = b :=
  (toLocalISO_eq_iff a b ha hb).trans (key_eq_iff a b)

theorem calendarBefore_iff_key (a b : Date) : calendarBefore a b ↔ a.key < b.key := by
  have hma := getMonth_le a; have hmb := getMonth_le b
  have hda := getDate_bounds a; have hdb := getDate_bounds b
  unfold calendarBefore Date.key
  omega

theorem isSameDay_iff_key (a b : Date) : isSameDay a b = true ↔ a.key = b.key := by
  have hma := getMonth_le a; have hmb := getMonth_le b
  have hda := getDate_bounds a; have hdb := getDate_bounds b
  unfold isSameDay Date.key
  simp only [Bool.and_eq_true, decide_eq_true_eq]
  omega

theorem char_toNat_lt_iff (a b : Char) : a.toNat < b.toNat ↔ a < b := by
  rfl

theorem char_toNat_eq_iff (a b : Char) : a.toNat = b.toNat ↔ a = b := by
  constructor
  · intro h
    apply Char.ext
    exact UInt32.ext h
  · rintro rfl; rfl

theorem strLt_iff_lt (a b : List Char) : strLt a b = true ↔ a < b := by
  induction a generalizing b with
  | nil =>
    cases b with
    | nil => simp [strLt]
    | cons y ys => simpa [strLt] using List.Lex.nil
  | cons x xs ih =>
    cases b with
    | nil => simp [strLt]
    | cons y ys =>
      rw [strLt_cons, char_toNat_lt_iff, char_toNat_eq_iff, ih]
      constructor
      · rintro (h | ⟨rfl, h⟩)
        · exact List.Lex.rel h
        · exact List.Lex.cons h
      · intro h
        cases h with
        | rel h => exact Or.inl h
        | cons h => exact Or.inr ⟨rfl, h⟩

/-- The comparison `jsLt` is the lexicographic order of strings. -/
theorem jsLt_iff_lt (s t : String) : jsLt s t = true ↔ s < t := by
  rw [String.lt_iff_toList_lt]
  exact strLt_iff_lt s.data t.data


/-- Claim C10. For days with four-digit years the string order of `toLocalISO`
(the comparison `jsLt`, which is the lexicographic order of strings) is the
calendar order of the (year, month, day) triples, which is also the order of
the instants; and two day strings are equal exactly for the same calendar
day. -/
theorem toLocalISO_order (a b : Date) (ha : FourDigitYear a) (hb : FourDigitYear b) :
    (jsLt (toLocalISO a) (toLocalISO b) = true ↔ calendarBefore a b) ∧
    (toLocalISO a < toLocalISO b ↔ calendarBefore a b) ∧
    (toLocalISO a = toLocalISO b ↔ isSameDay a b = true) ∧
    (calendarBefore a b ↔ a.getTime < b.getTime) ∧
    (isSameDay a b = true ↔ a = b) :=
  ⟨(jsLt_toLocalISO a b ha hb).trans (calendarBefore_iff_key a b).symm,
   (jsLt_iff_lt _ _).symm.trans
     ((jsLt_toLocalISO a b ha hb).trans (calendarBefore_iff_key a b).symm),
   (toLocalISO_eq_iff a b ha hb).trans (isSameDay_iff_key a b).symm,
   ((calendarBefore_iff_key a b).trans (key_lt_iff a b)).trans (getTime_lt_iff a b).symm,
   (isSameDay_iff_key a b).trans (key_eq_iff a b)⟩

theorem toLocalISO_order_witness :
    FourDigitYear (newDate 2024 0 31) ∧ FourDigitYear (newDate 2024 1 1) ∧
    (jsLt (toLocalISO (newDate 2024 0 31)) (toLocalISO (newDate 2024 1 1)) = true ↔
      calendarBefore (newDate 2024 0 31) (newDate 2024 1 1)) :=
  ⟨by decide, by decide, (toLocalISO_order _ _ (by decide) (by decide)).1⟩

/-! ## The availability loop -/

theorem busyLoop_end_of_start (dStr : String) (l : List BusyRange)
    (h : ∃ r ∈ l, r.startDate = dStr) : busyLoop dStr Status.end_ l = Status.full := by
  induction l with
  | nil => simp at h
  | cons a l ih =>
    simp only [busyLoop]
    by_cases hs : dStr = a.startDate
    · simp [hs]
    · have hl : ∃ r ∈ l, r.startDate = dStr := by
        obtain ⟨r, hr, e⟩ := h
        rcases List.mem_cons.1 hr with rfl | hr
        · exact absurd e.symm hs
        · exact ⟨r, hr, e⟩
      simp only [hs, false_and, if_false, reduceCtorEq, and_false, ite_self]
      split_ifs <;> first | rfl | exact ih hl

theorem busyLoop_start_of_end (dStr : String) (l : List BusyRange)
    (h : ∃ r ∈ l, r.endDate = dStr) : busyLoop dStr Status.start l = Status.full := by
  induction l with
  | nil => simp at h
  | cons a l ih =>
    simp only [busyLoop]
    by_cases he : dStr = a.endDate
    · simp [he]
    · have hl : ∃ r ∈ l, r.endDate = dStr := by
        obtain ⟨r, hr, e⟩ := h
        rcases List.mem_cons.1 hr with rfl | hr
        · exact absurd e.symm he
        · exact ⟨r, hr, e⟩
      simp only [he, false_and, if_false, reduceCtorEq, and_false, ite_self]
      split_ifs <;> first | rfl | exact ih hl

theorem busyLoop_collision (dStr : String) (l : List BusyRange) (st : Status)
    (he : ∃ r ∈ l, r.endDate = dStr) (hs : ∃ r ∈ l, r.startDate = dStr) :
    busyLoop dStr st l = Status.full := by
  induction l generalizing st with
  | nil => simp at he
  | cons a l ih =>
    simp only [busyLoop]
    by_cases h1 : dStr = a.startDate <;> by_cases h2 : dStr = a.endDate
    · simp [← h1, ← h2]
    · have hl : ∃ r ∈ l, r.endDate = dStr := by
        obtain ⟨r, hr, e⟩ := he
        rcases List.mem_cons.1 hr with rfl | hr
        · exact absurd e.symm h2
        · exact ⟨r, hr, e⟩
      simp only [← h1, h2, true_and, false_and, if_false, if_true]
      split_ifs <;> first | rfl | exact busyLoop_start_of_end dStr l hl
    · have hl : ∃ r ∈ l, r.startDate = dStr := by
        obtain ⟨r, hr, e⟩ := hs
        rcases List.mem_cons.1 hr with rfl | hr
        · exact absurd e.symm h1
        · exact ⟨r, hr, e⟩
      simp only [h1, ← h2, true_and, false_and, if_false, if_true]
      split_ifs <;> first | rfl | exact busyLoop_end_of_start dStr l hl
    · have hl1 : ∃ r ∈ l, r.endDate = dStr := by
        obtain ⟨r, hr, e⟩ := he
        rcases List.mem_cons.1 hr with rfl | hr
        · exact absurd e.symm h2
        · exact ⟨r, hr, e⟩
      have hl2 : ∃ r ∈ l, r.startDate = dStr := by
        obtain ⟨r, hr, e⟩ := hs
        rcases List.mem_cons.1 hr with rfl | hr
        · exact absurd e.symm h1
        · exact ⟨r, hr, e⟩
      simp only [h1, h2, false_and, if_false]
      split_ifs <;> first | rfl | exact ih st hl1 hl2

/-- Claim C5. When some entry of the busy list ends on day `d` and an entry
starts on day `d`, `getBusyState` returns full for `d`, wherever the two entries
stand in the list (before or after one another, or even at the same position)
and whatever else the list contains. -/
theorem getBusyState_shared_endpoint (busyDates : List BusyRange) (d : Date)
    (i j : Fin busyDates.length)
    (hi : (busyDates.get i).endDate = toLocalISO d)
    (hj : (busyDates.get j).startDate = toLocalISO d) :
    getBusyState busyDates d = Status.full :=
  busyLoop_collision _ _ _ ⟨_, List.get_mem _ _ _, hi⟩ ⟨_, List.get_mem _ _ _, hj⟩


theorem getBusyState_shared_endpoint_witness :
    (([⟨"2024-01-10", "2024-01-15"⟩, ⟨"2024-02-01", "2024-02-05"⟩,
        ⟨"2024-01-05", "2024-01-10"⟩] : List BusyRange).get ⟨2, by decide⟩).endDate =
      toLocalISO (newDate 2024 0 10) ∧
    (([⟨"2024-01-10", "2024-01-15"⟩, ⟨"2024-02-01", "2024-02-05"⟩,
        ⟨"2024-01-05", "2024-01-10"⟩] : List BusyRange).get ⟨0, by decide⟩).startDate =
      toLocalISO (newDate 2024 0 10) ∧
    getBusyState [⟨"2024-01-10", "2024-01-15"⟩, ⟨"2024-02-01", "2024-02-05"⟩,
      ⟨"2024-01-05", "2024-01-10"⟩] (newDate 2024 0 10) = Status.full :=
  ⟨by decide, by decide,
    getBusyState_shared_endpoint _ (newDate 2024 0 10) ⟨2, by decide⟩ ⟨0, by decide⟩
      (by decide) (by decide)⟩

theorem hasOverlap_iff (busyDates : List BusyRange) (a b : Date) :
    hasOverlap busyDates a b = true ↔
      ∃ r ∈ busyDates, jsLt (toLocalISO a) r.endDate = true ∧
        jsLt r.startDate (toLocalISO b) = true := by
  simp [hasOverlap, List.any_eq_true]

/-- Claim C6, amended. For busy intervals and candidate days whose years have
four digits, `hasOverlap a b` holds exactly when some interval has `a` before
its end and `b` after its start in calendar order; a candidate that only
touches the interval 2024-01-10 to 2024-01-15 at its start does not overlap,
one that reaches 2024-01-11 does. -/
theorem hasOverlap_calendar (l : List (Date × Date)) (a b : Date)
    (hl : ∀ i ∈ l, FourDigitYear i.1 ∧ FourDigitYear i.2)
    (ha : FourDigitYear a) (hb : FourDigitYear b) :
    (hasOverlap (toBusyDates l) a b = true ↔
      ∃ i ∈ l, a.day < i.2.day ∧ i.1.day < b.day) ∧
    hasOverlap [busyRange (newDate 2024 0 10) (newDate 2024 0 15)]
      (newDate 2024 0 5) (newDate 2024 0 10) = false ∧
    hasOverlap [busyRange (newDate 2024 0 10) (newDate 2024 0 15)]
      (newDate 2024 0 5) (newDate 2024 0 11) = true := by
  refine ⟨?_, by decide, by decide⟩
  rw [hasOverlap_iff]
  constructor
  · rintro ⟨r, hr, h1, h2⟩
    obtain ⟨i, hi, rfl⟩ := List.mem_map.1 hr
    refine ⟨i, hi, ?_, ?_⟩
    · exact (jsLt_toLocalISO_iff a i.2 ha (hl i hi).2).1 h1
    · exact (jsLt_toLocalISO_iff i.1 b (hl i hi).1 hb).1 h2
  · rintro ⟨i, hi, h1, h2⟩
    refine ⟨busyRange i.1 i.2, List.mem_map.2 ⟨i, hi, rfl⟩, ?_, ?_⟩
    · exact (jsLt_toLocalISO_iff a i.2 ha (hl i hi).2).2 h1
    · exact (jsLt_toLocalISO_iff i.1 b (hl i hi).1 hb).2 h2

theorem hasOverlap_calendar_witness :
    (∀ i ∈ [(newDate 2024 0 10, newDate 2024 0 15)], FourDigitYear i.1 ∧ FourDigitYear i.2) ∧
    FourDigitYear (newDate 2024 0 5) ∧ FourDigitYear (newDate 2024 0 11) ∧
    ((hasOverlap (toBusyDates [(newDate 2024 0 10, newDate 2024 0 15)])
        (newDate 2024 0 5) (newDate 2024 0 11) = true ↔
      ∃ i ∈ [(newDate 2024 0 10, newDate 2024 0 15)],
        (newDate 2024 0 5).day < i.2.day ∧ i.1.day < (newDate 2024 0 11).day) ∧
    hasOverlap [busyRange (newDate 2024 0 10) (newDate 2024 0 15)]
      (newDate 2024 0 5) (newDate 2024 0 10) = false ∧
    hasOverlap [busyRange (newDate 2024 0 10) (newDate 2024 0 15)]
      (newDate 2024 0 5) (newDate 2024 0 11) = true) :=
  ⟨by decide, by decide, by decide,
    hasOverlap_calendar _ _ _ (by decide) (by decide) (by decide)⟩

/-- Claim C6 as stated fails outside four-digit years: the candidate from
2024-01-01 to 10000-01-01 covers the interval 2024-01-10 to 2024-01-15 in
calendar order, yet `hasOverlap` is false, because the string 10000-01-01 sorts
before 2024-01-10. -/
theorem hasOverlap_year_10000 :
    toLocalISO (newDate 2024 0 1) = "2024-01-01" ∧
    toLocalISO (newDate 10000 0 1) = "10000-01-01" ∧
    busyRange (newDate 2024 0 10) (newDate 2024 0 15) = ⟨"2024-01-10", "2024-01-15"⟩ ∧
    ((newDate 2024 0 1).day < (newDate 2024 0 15).day ∧
      (newDate 2024 0 10).day < (newDate 10000 0 1).day) ∧
    hasOverlap [busyRange (newDate 2024 0 10) (newDate 2024 0 15)]
      (newDate 2024 0 1) (newDate 10000 0 1) = false := by
  decide


theorem date_eq_iff (a b : Date) : a = b ↔ a.day = b.day := by
  cases a; cases b; simp

theorem busyLoop_cons_calendar (d : Date) (i : Date × Date) (l : List (Date × Date))
    (st : Status) (hd : FourDigitYear d) (h1 : FourDigitYear i.1) (h2 : FourDigitYear i.2) :
    busyLoop (toLocalISO d) st (toBusyDates (i :: l)) =
      if i.1.day < d.day ∧ d.day < i.2.day then Status.full
      else if d.day = i.1.day ∧ st = Status.end_ then Status.full
      else if d.day = i.2.day ∧ (if d.day = i.1.day then Status.start else st) = Status.start
        then Status.full
      else busyLoop (toLocalISO d)
        (if d.day = i.2.day then Status.end_ else if d.day = i.1.day then Status.start else st)
        (toBusyDates l) := by
  simp only [toBusyDates, List.map_cons, busyLoop, busyRange, jsLt_toLocalISO_iff _ _ h1 hd,
    jsLt_toLocalISO_iff _ _ hd h2, toLocalISO_inj _ _ hd h1, toLocalISO_inj _ _ hd h2,
    date_eq_iff]

theorem busyLoop_untouched (d : Date) (hd : FourDigitYear d) (l : List (Date × Date))
    (st : Status)
    (hl : ∀ i ∈ l, FourDigitYear i.1 ∧ FourDigitYear i.2 ∧ i.1.day < i.2.day)
    (hfree : ∀ i ∈ l, d.day < i.1.day ∨ i.2.day < d.day) :
    busyLoop (toLocalISO d) st (toBusyDates l) = st := by
  induction l generalizing st with
  | nil => rfl
  | cons i l ih =>
    have hi := hl i (List.mem_cons_self _ _)
    have hf := hfree i (List.mem_cons_self _ _)
    have e1 : ¬ d.day = i.1.day := by omega
    have e2 : ¬ d.day = i.2.day := by omega
    have e3 : ¬ (i.1.day < d.day ∧ d.day < i.2.day) := by omega
    rw [busyLoop_cons_calendar d i _ st hd hi.1 hi.2.1]
    simp only [e1, e2, e3, false_and, if_false]
    exact ih st (fun j hj => hl j (List.mem_cons_of_mem _ hj))
      (fun j hj => hfree j (List.mem_cons_of_mem _ hj))

theorem busyLoop_touching (d : Date) (hd : FourDigitYear d) (l : List (Date × Date))
    (hl : ∀ i ∈ l, FourDigitYear i.1 ∧ FourDigitYear i.2 ∧ i.1.day < i.2.day)
    (hp : l.Pairwise fun i j => i.2.day < j.1.day ∨ j.2.day < i.1.day)
    (j : Date × Date) (hj : j ∈ l) (htouch : j.1.day ≤ d.day ∧ d.day ≤ j.2.day) :
    busyLoop (toLocalISO d) Status.none (toBusyDates l) =
      if j.1.day < d.day ∧ d.day < j.2.day then Status.full
      else if d.day = j.1.day then Status.start else Status.end_ := by
  induction l with
  | nil => simp at hj
  | cons i l ih =>
    have hi := hl i (List.mem_cons_self _ _)
    have hl2 : ∀ k ∈ l, FourDigitYear k.1 ∧ FourDigitYear k.2 ∧ k.1.day < k.2.day :=
      fun k hk => hl k (List.mem_cons_of_mem _ hk)
    obtain ⟨hpi, hp2⟩ := List.pairwise_cons.1 hp
    rw [busyLoop_cons_calendar d i _ _ hd hi.1 hi.2.1]
    rcases List.mem_cons.1 hj with rfl | hj
    · have hfree : ∀ k ∈ l, d.day < k.1.day ∨ k.2.day < d.day := by
        intro k hk
        have := hpi k hk
        omega
      simp only [busyLoop_untouched d hd l _ hl2 hfree]
      split_ifs <;> first | rfl | omega | simp_all
    · have := hpi j hj
      have hj2 := hl2 j hj
      have e1 : ¬ d.day = i.1.day := by omega
      have e2 : ¬ d.day = i.2.day := by omega
      have e3 : ¬ (i.1.day < d.day ∧ d.day < i.2.day) := by omega
      simp only [e1, e2, e3, false_and, if_false]
      exact ih hl2 hp2 hj

/-- Claim C4, amended. For busy intervals with four-digit years, each with its
start before its end, pairwise non-overlapping and non-adjacent, and a day with
a four-digit year, `getBusyState` returns full strictly inside an interval,
start on an interval start, end on an interval end and none on any other day. -/
theorem getBusyState_disjoint (l : List (Date × Date)) (d : Date)
    (hl : ∀ i ∈ l, FourDigitYear i.1 ∧ FourDigitYear i.2 ∧ i.1.day < i.2.day)
    (hp : l.Pairwise fun i j => i.2.day < j.1.day ∨ j.2.day < i.1.day)
    (hd : FourDigitYear d) :
    ((∃ i ∈ l, i.1.day < d.day ∧ d.day < i.2.day) →
      getBusyState (toBusyDates l) d = Status.full) ∧
    ((∃ i ∈ l, d = i.1) → getBusyState (toBusyDates l) d = Status.start) ∧
    ((∃ i ∈ l, d = i.2) → getBusyState (toBusyDates l) d = Status.end_) ∧
    ((∀ i ∈ l, d.day < i.1.day ∨ i.2.day < d.day) →
      getBusyState (toBusyDates l) d = Status.none) := by
  unfold getBusyState
  refine ⟨?_, ?_, ?_, fun h => busyLoop_untouched d hd l _ hl h⟩
  · rintro ⟨i, hi, h⟩
    rw [busyLoop_touching d hd l hl hp i hi (by omega), if_pos h]
  · rintro ⟨i, hi, rfl⟩
    rw [busyLoop_touching i.1 hd l hl hp i hi (by have := (hl i hi).2.2; omega)]
    simp
  · rintro ⟨i, hi, rfl⟩
    have := (hl i hi).2.2
    rw [busyLoop_touching i.2 hd l hl hp i hi (by omega)]
    have e : ¬ i.2.day = i.1.day := by omega
    simp [e]


/-- Claim C4 as stated fails in three ways.  A one-day interval (start equal to
end) makes its day full, not start or end.  A day of year 10000 that lies after
the interval 1000-01-01 to 1999-12-31 is reported full, because its string
sorts between the two.  The day 9999-12-31 strictly inside the interval
9999-12-30 to 10000-01-02 is reported none. -/
theorem getBusyState_disjoint_fails :
    getBusyState (toBusyDates [(newDate 2024 0 10, newDate 2024 0 10)]) (newDate 2024 0 10)
      = Status.full ∧
    (toLocalISO (newDate 10000 0 1) = "10000-01-01" ∧
      (newDate 1999 11 31).day < (newDate 10000 0 1).day ∧
      getBusyState (toBusyDates [(newDate 1000 0 1, newDate 1999 11 31)]) (newDate 10000 0 1)
        = Status.full) ∧
    ((newDate 9999 11 30).day < (newDate 9999 11 31).day ∧
      (newDate 9999 11 31).day < (newDate 10000 0 2).day ∧
      getBusyState (toBusyDates [(newDate 9999 11 30, newDate 10000 0 2)]) (newDate 9999 11 31)
        = Status.none) := by
  decide

theorem getBusyState_disjoint_witness :
    (∀ i ∈ [(newDate 2024 0 10, newDate 2024 0 15), (newDate 2024 1 1, newDate 2024 1 5)],
      FourDigitYear i.1 ∧ FourDigitYear i.2 ∧ i.1.day < i.2.day) ∧
    [(newDate 2024 0 10, newDate 2024 0 15), (newDate 2024 1 1, newDate 2024 1 5)].Pairwise
      (fun i j => i.2.day < j.1.day ∨ j.2.day < i.1.day) ∧
    FourDigitYear (newDate 2024 1 1) ∧
    getBusyState
      (toBusyDates [(newDate 2024 0 10, newDate 2024 0 15), (newDate 2024 1 1, newDate 2024 1 5)])
      (newDate 2024 1 1) = Status.start :=
  ⟨by decide, by decide, by decide,
    (getBusyState_disjoint
      [(newDate 2024 0 10, newDate 2024 0 15), (newDate 2024 1 1, newDate 2024 1 5)]
      (newDate 2024 1 1) (by decide) (by decide) (by decide)).2.1
      ⟨(newDate 2024 1 1, newDate 2024 1 5), by simp, rfl⟩⟩


theorem strLt_trans : ∀ a b c : List Char,
    strLt a b = true → strLt b c = true → strLt a c = true := by
  intro a
  induction a with
  | nil =>
    intro b c h1 h2
    cases b with
    | nil => simp [strLt] at h1
    | cons y ys =>
      cases c with
      | nil => simp [strLt] at h2
      | cons z zs => simp [strLt]
  | cons x xs ih =>
    intro b c h1 h2
    cases b with
    | nil => simp [strLt] at h1
    | cons y ys =>
      cases c with
      | nil => simp [strLt] at h2
      | cons z zs =>
        rw [strLt_cons] at h1 h2 ⊢
        rcases h1 with h1 | ⟨h1, h1t⟩ <;> rcases h2 with h2 | ⟨h2, h2t⟩
        · left; omega
        · left; omega
        · left; omega
        · right; exact ⟨by omega, ih ys zs h1t h2t⟩

theorem hasOverlap_of_inside (busyDates : List BusyRange) (s d : Date)
    (hs : FourDigitYear s) (hd : FourDigitYear d) (hsd : s.day ≤ d.day)
    (hin : ∃ r ∈ busyDates, jsLt r.startDate (toLocalISO d) = true ∧
      jsLt (toLocalISO d) r.endDate = true) :
    hasOverlap busyDates s d = true := by
  obtain ⟨r, hr, h1, h2⟩ := hin
  refine (hasOverlap_iff _ _ _).2 ⟨r, hr, ?_, h1⟩
  rcases Nat.lt_or_ge s.day d.day with h | h
  · exact strLt_trans _ _ _ ((jsLt_toLocalISO_iff s d hs hd).2 h) h2
  · have : s = d := by cases s; cases d; simp at *; omega
    rw [this]; exact h2

/-- Claim C2, amended. A click on a day whose status is full gets no special
treatment: from an empty or complete selection, and from a partial selection
with the day before the start, the new selection starts at the clicked day with
no end; and when the day lies strictly inside a busy range (four-digit years),
a partial selection is also replaced by a new one starting at the clicked day,
so such a day is never taken as the end of a stay. -/
theorem handleDateClick_full_day (p : Picker) (d : Date)
    (_hfull : getBusyState p.busyDates d = Status.full) :
    ((p.startDate = none ∨ p.endDate ≠ none) →
      (handleDateClick p d).startDate = some d ∧ (handleDateClick p d).endDate = none) ∧
    (∀ s, p.startDate = some s → p.endDate = none → d.day < s.day →
      (handleDateClick p d).startDate = some d ∧ (handleDateClick p d).endDate = none) ∧
    (∀ s, p.startDate = some s → p.endDate = none → FourDigitYear s → FourDigitYear d →
      (∃ r ∈ p.busyDates, jsLt r.startDate (toLocalISO d) = true ∧
        jsLt (toLocalISO d) r.endDate = true) →
      (handleDateClick p d).startDate = some d ∧ (handleDateClick p d).endDate = none) := by
  have key := handleDateClick_selection p d
  refine ⟨?_, ?_, ?_⟩
  · intro h
    rcases hs : p.startDate with _ | s <;> rcases he : p.endDate with _ | e <;>
      simp [hs, he, selectDaySpec] at key h ⊢ <;> exact key
  · intro s hs he hlt
    have : ¬ s.day ≤ d.day := by omega
    simpa [hs, he, selectDaySpec, this] using key
  · intro s hs he h4s h4d hin
    by_cases hsd : s.day ≤ d.day
    · have ho := hasOverlap_of_inside p.busyDates s d h4s h4d hsd hin
      simpa [hs, he, selectDaySpec, ho] using key
    · simpa [hs, he, selectDaySpec, hsd] using key

theorem handleDateClick_full_day_witness :
    getBusyState [⟨"2024-01-10", "2024-01-15"⟩] (newDate 2024 0 12) = Status.full ∧
    (handleDateClick ⟨some (newDate 2024 0 8), none, [⟨"2024-01-10", "2024-01-15"⟩], none, 3, 28⟩
        (newDate 2024 0 12)).startDate = some (newDate 2024 0 12) ∧
    (handleDateClick ⟨some (newDate 2024 0 8), none, [⟨"2024-01-10", "2024-01-15"⟩], none, 3, 28⟩
        (newDate 2024 0 12)).endDate = none :=
  ⟨by decide,
    (handleDateClick_full_day
      ⟨some (newDate 2024 0 8), none, [⟨"2024-01-10", "2024-01-15"⟩], none, 3, 28⟩
      (newDate 2024 0 12) (by decide)).2.2 (newDate 2024 0 8) rfl rfl (by decide) (by decide)
      ⟨⟨"2024-01-10", "2024-01-15"⟩, List.mem_singleton.2 rfl, by decide, by decide⟩⟩

/-- Claim C2 as stated fails: with the busy range 2024-01-10 to 2024-01-15 the
day 2024-01-12 is full, yet clicking it on an empty selection makes it the
start of a new selection. -/
theorem handleDateClick_full_day_changes :
    toLocalISO (newDate 2024 0 12) = "2024-01-12" ∧
    getBusyState [⟨"2024-01-10", "2024-01-15"⟩] (newDate 2024 0 12) = Status.full ∧
    (handleDateClick ⟨none, none, [⟨"2024-01-10", "2024-01-15"⟩], none, 3, 28⟩
      (newDate 2024 0 12)).startDate = some (newDate 2024 0 12) ∧
    (handleDateClick ⟨none, none, [⟨"2024-01-10", "2024-01-15"⟩], none, 3, 28⟩
      (newDate 2024 0 12)).startDate ≠
      (⟨none, none, [⟨"2024-01-10", "2024-01-15"⟩], none, 3, 28⟩ : Picker).startDate := by
  refine ⟨by decide, by decide, rfl, ?_⟩
  simp [handleDateClick]


/-! ## Pricing -/

theorem dateKeyOf_data (d : Date) :
    (dateKeyOf d).data =
      [Nat.digitChar ((d.getMonth + 1) / 10), Nat.digitChar ((d.getMonth + 1) % 10), '-',
       Nat.digitChar (d.getDate / 10), Nat.digitChar (d.getDate % 10)] := by
  have hm := getMonth_le d
  have hd := getDate_bounds d
  unfold dateKeyOf
  simp only [String.data_append]
  rw [padStart_two _ (by omega), padStart_two _ (by omega)]
  rfl

/-- Claim C7, amended. `getPriceForDate` returns the `dates` entry of the day's
zero-padded month-day key when that entry is present and not 0; otherwise the
`days` entry of the day's weekday when that entry is present and not 0;
otherwise the default.  An entry that is absent or 0 is skipped, and a usable
date entry wins whatever the weekday table holds. -/
theorem getPriceForDate_precedence (rules : PriceRules) (d : Date) :
    getPriceForDate (some rules) d = some (priceOf rules d) ∧
    (dateKeyOf d).data =
      [Nat.digitChar ((d.getMonth + 1) / 10), Nat.digitChar ((d.getMonth + 1) % 10), '-',
       Nat.digitChar (d.getDate / 10), Nat.digitChar (d.getDate % 10)] ∧
    (∀ v, lookup rules.dates (dateKeyOf d) = some v → v ≠ 0 → priceOf rules d = v) ∧
    ((lookup rules.dates (dateKeyOf d) = none ∨ lookup rules.dates (dateKeyOf d) = some 0) →
      ∀ w, lookup rules.days (toString d.getDay) = some w → w ≠ 0 → priceOf rules d = w) ∧
    ((lookup rules.dates (dateKeyOf d) = none ∨ lookup rules.dates (dateKeyOf d) = some 0) →
      (lookup rules.days (toString d.getDay) = none ∨
        lookup rules.days (toString d.getDay) = some 0) →
      priceOf rules d = rules.default) := by
  refine ⟨rfl, dateKeyOf_data d, ?_, ?_, ?_⟩
  · intro v hv hv0
    simp [priceOf, hv, truthy, hv0]
  · intro h w hw hw0
    rcases h with h | h <;> simp [priceOf, h, hw, truthy, hw0]
  · intro h h2
    rcases h with h | h <;> rcases h2 with h2 | h2 <;> simp [priceOf, h, h2, truthy]

/-- Claim C7 as stated fails for an entry equal to 0: with `dates` holding 0
for the key 12-25 and default 100, the price of 2024-12-25 is the default 100,
not the entry 0. -/
theorem getPriceForDate_zero_entry :
    dateKeyOf (newDate 2024 11 25) = "12-25" ∧
    lookup (some fun k => if k = "12-25" then some 0 else none) (dateKeyOf (newDate 2024 11 25))
      = some 0 ∧
    getPriceForDate
      (some ⟨100, none, some fun k => if k = "12-25" then some 0 else none, none, none⟩)
      (newDate 2024 11 25) = some 100 := by
  have hk : dateKeyOf (newDate 2024 11 25) = "12-25" := by decide
  refine ⟨hk, ?_, ?_⟩
  · simp [lookup, hk]
  · simp [getPriceForDate, priceOf, lookup, hk, truthy]

theorem priceOf_default_only (rules : PriceRules) (d : Date)
    (h1 : rules.days = none) (h2 : rules.dates = none) : priceOf rules d = rules.default := by
  simp [priceOf, lookup, h1, h2, truthy]


/-! ## Double arithmetic -/

theorem roundHalfEven_eq (y : ℚ) (m : Int)
    (h : |y - m| < 1 / 2 ∨ (|y - m| = 1 / 2 ∧ m % 2 = 0)) : roundHalfEven y = m := by
  unfold roundHalfEven
  have hf1 := Int.floor_le y
  have hf2 := Int.lt_floor_add_one y
  rcases h with h | ⟨h, hm⟩
  · rw [abs_lt] at h
    have hcases : ⌊y⌋ = m ∨ ⌊y⌋ = m - 1 := by
      have h1 : (m : ℚ) - 1 < ⌊y⌋ + 1 := by linarith [h.1, h.2]
      have h2 : ((⌊y⌋ : Int) : ℚ) < m + 1 := by linarith [h.1, h.2]
      have h1' : m - 1 < ⌊y⌋ + 1 := by exact_mod_cast h1
      have h2' : ⌊y⌋ < m + 1 := by exact_mod_cast h2
      omega
    rcases hcases with hc | hc
    · have hc' : ((⌊y⌋ : Int) : ℚ) = m := by exact_mod_cast hc
      have : y - ⌊y⌋ < 1 / 2 := by rw [hc']; linarith [h.2]
      rw [if_pos this, hc]
    · have hc' : ((⌊y⌋ : Int) : ℚ) = m - 1 := by rw [hc]; push_cast; ring
      have h1 : ¬ y - ⌊y⌋ < 1 / 2 := by rw [hc']; linarith [h.1]
      have h2 : 1 / 2 < y - ⌊y⌋ := by rw [hc']; linarith [h.1]
      rw [if_neg h1, if_pos h2, hc]; ring
  · rcases (abs_eq (by norm_num : (0 : ℚ) ≤ 1 / 2)).1 h with h | h
    · have hfl : ⌊y⌋ = m := by
        rw [Int.floor_eq_iff]; constructor <;> linarith
      have hc' : ((⌊y⌋ : Int) : ℚ) = m := by exact_mod_cast hfl
      have h1 : ¬ y - ⌊y⌋ < 1 / 2 := by rw [hc']; linarith
      have h2 : ¬ 1 / 2 < y - ⌊y⌋ := by rw [hc']; linarith
      rw [if_neg h1, if_neg h2, hfl, if_pos hm]
    · have hfl : ⌊y⌋ = m - 1 := by
        rw [Int.floor_eq_iff]; push_cast; constructor <;> linarith
      have hc' : ((⌊y⌋ : Int) : ℚ) = m - 1 := by rw [hfl]; push_cast; ring
      have h1 : ¬ y - ⌊y⌋ < 1 / 2 := by rw [hc']; linarith
      have h2 : ¬ 1 / 2 < y - ⌊y⌋ := by rw [hc']; linarith
      have h3 : ¬ (m - 1) % 2 = 0 := by omega
      rw [if_neg h1, if_neg h2, hfl, if_neg h3]; ring

theorem log_two_eq (x : ℚ) (e : Int) (h1 : (2 : ℚ) ^ e ≤ |x|) (h2 : |x| < (2 : ℚ) ^ (e + 1)) :
    Int.log 2 |x| = e := by
  have hpos : 0 < |x| := lt_of_lt_of_le (by positivity) h1
  have a := (Int.zpow_le_iff_le_log (b := 2) (by norm_num) hpos).1 (by exact_mod_cast h1)
  have b := (Int.lt_zpow_iff_log_lt (b := 2) (by norm_num) hpos).1 (by exact_mod_cast h2)
  omega

theorem double_eq (x v : ℚ) (e m : Int) (h1 : (2 : ℚ) ^ e ≤ |x|)
    (h2 : |x| < (2 : ℚ) ^ (e + 1)) (he : -1022 ≤ e)
    (hm : |x / 2 ^ (e - 52) - m| < 1 / 2 ∨ (|x / 2 ^ (e - 52) - m| = 1 / 2 ∧ m % 2 = 0))
    (hv : v = m * 2 ^ (e - 52)) :
    double x = v := by
  have hu : ulpExp x = e - 52 := by
    unfold ulpExp; rw [log_two_eq x e h1 h2]; omega
  unfold double
  rw [hu, roundHalfEven_eq _ m hm, hv]

theorem toNumber_of_double (x v : ℚ) (hd : double x = v) (h1 : v < 2 ^ 1024)
    (h2 : -2 ^ 1024 < v) : toNumber x = JSNumber.fin v := by
  unfold toNumber
  rw [hd, if_neg (not_le.2 h1), if_neg (not_le.2 h2)]

theorem double_zero : double 0 = 0 := by
  unfold double
  rw [zero_div, roundHalfEven_eq 0 0 (by norm_num)]
  simp

theorem double_intCast (z : Int) (hz : |z| ≤ 2 ^ 53) : double (z : ℚ) = z := by
  by_cases h0 : z = 0
  · subst h0; simpa using double_zero
  have hq : (1 : ℚ) ≤ |(z : ℚ)| := by
    have : 1 ≤ |z| := Int.one_le_abs h0
    exact_mod_cast this
  have hpos : (0 : ℚ) < |(z : ℚ)| := by linarith
  have hq2 : |(z : ℚ)| ≤ 2 ^ 53 := by exact_mod_cast hz
  have h1 := Int.zpow_log_le_self (b := 2) (by norm_num) hpos
  have h2 := Int.lt_zpow_succ_log_self (b := 2) (by norm_num) |(z : ℚ)|
  have hlo : 0 ≤ Int.log 2 |(z : ℚ)| := by
    apply (Int.zpow_le_iff_le_log (b := 2) (by norm_num) hpos).1
    simpa using hq
  have hhi : Int.log 2 |(z : ℚ)| < 54 := by
    apply (Int.lt_zpow_iff_log_lt (b := 2) (by norm_num) hpos).1
    calc |(z : ℚ)| ≤ 2 ^ 53 := hq2
      _ < ((2 : ℕ) : ℚ) ^ (54 : Int) := by norm_num
  generalize hE : Int.log 2 |(z : ℚ)| = E at h1 h2 hlo hhi
  push_cast at h1 h2
  by_cases hE53 : E = 53
  · subst hE53
    have h1' : (2 : ℚ) ^ 53 ≤ |(z : ℚ)| := by
      have e : (2 : ℚ) ^ (53 : Int) = 2 ^ 53 := by norm_num
      rw [← e]; exact h1
    have habs : |(z : ℚ)| = 2 ^ 53 := le_antisymm hq2 h1'
    have hzz : (z : ℚ) = 2 ^ 53 ∨ (z : ℚ) = -2 ^ 53 := by
      rcases abs_cases (z : ℚ) with ⟨h, -⟩ | ⟨h, -⟩
      · left; rw [← h, habs]
      · right; rw [← habs, h]; ring
    rcases hzz with hzz | hzz
    · apply double_eq (z : ℚ) z 53 (2 ^ 52) h1 h2 (by norm_num)
      · left; rw [hzz]; norm_num
      · rw [hzz]; norm_num
    · apply double_eq (z : ℚ) z 53 (-2 ^ 52) h1 h2 (by norm_num)
      · left; rw [hzz]; norm_num
      · rw [hzz]; norm_num
  · obtain ⟨j, hj⟩ : ∃ j : ℕ, (j : Int) = 52 - E := ⟨(52 - E).toNat, by omega⟩
    have hpow : (2 : ℚ) ^ (E - 52) = ((2 : ℚ) ^ j)⁻¹ := by
      have : E - 52 = -(j : Int) := by omega
      rw [this, zpow_neg, zpow_natCast]
    have hj0 : (2 : ℚ) ^ j ≠ 0 := by positivity
    apply double_eq (z : ℚ) z E (z * 2 ^ j) h1 h2 (by omega)
    · left
      rw [hpow]
      push_cast
      rw [div_inv_eq_mul, sub_self]
      norm_num
    · rw [hpow]
      push_cast
      field_simp

theorem toNumber_intCast (z : Int) (hz : |z| ≤ 2 ^ 53) :
    toNumber (z : ℚ) = JSNumber.fin z := by
  have hq2 : |(z : ℚ)| ≤ 2 ^ 53 := by exact_mod_cast hz
  have hb := abs_le.1 hq2
  apply toNumber_of_double _ _ (double_intCast z hz)
  · calc (z : ℚ) ≤ 2 ^ 53 := hb.2
      _ < 2 ^ 1024 := by norm_num
  · calc -(2 : ℚ) ^ 1024 < -2 ^ 53 := by norm_num
      _ ≤ (z : ℚ) := hb.1

theorem mathRound_fin_eq (q : ℚ) (n : Int) (h1 : (n : ℚ) ≤ q + 1 / 2)
    (h2 : q + 1 / 2 < n + 1) : mathRound (JSNumber.fin q) = JSNumber.fin n := by
  have : ⌊q + 1 / 2⌋ = n := by rw [Int.floor_eq_iff]; exact ⟨h1, h2⟩
  simp only [mathRound, this]

theorem mathRound_nearest (y : ℚ) :
    ∃ n : Int, mathRound (JSNumber.fin y) = JSNumber.fin n ∧ |(n : ℚ) - y| ≤ 1 / 2 := by
  refine ⟨⌊y + 1 / 2⌋, rfl, ?_⟩
  have h1 := Int.floor_le (y + 1 / 2)
  have h2 := Int.lt_floor_add_one (y + 1 / 2)
  rw [abs_le]
  constructor <;> linarith

/-! ## The quote -/

theorem sumLoop_eq (rules : PriceRules) (e : Date) (n : Nat) :
    ∀ (c : Date) (total : JSNumber), e.day - c.day = n →
      sumLoop rules e c total =
        (List.range n).foldl
          (fun t i => jsAdd t (toNumber (priceOf rules ⟨c.day + i⟩))) total := by
  induction n with
  | zero =>
    intro c total h
    rw [sumLoop]
    have : ¬ c.getTime < e.getTime := by rw [getTime_lt_iff]; omega
    simp [this]
  | succ n ih =>
    intro c total h
    rw [sumLoop]
    have hlt : c.getTime < e.getTime := by rw [getTime_lt_iff]; omega
    rw [if_pos hlt, ih c.nextDay _ (by simp only [Date.nextDay]; omega)]
    rw [List.range_succ_eq_map, List.foldl_cons, List.foldl_map]
    have : ∀ i, c.day + 1 + i = c.day + (i + 1) := by intro i; omega
    simp only [Date.nextDay, this, Nat.add_zero, Nat.succ_eq_add_one]

theorem dispatch_complete (p : Picker) (s e : Date) (rules : PriceRules)
    (hs : p.startDate = some s) (he : p.endDate = some e) (hr : p.priceRules = some rules) :
    (dispatchSelectionEvent p).nights = daysBetween s e ∧
    (dispatchSelectionEvent p).fullPrice = sumLoop rules e s (JSNumber.fin 0) ∧
    (dispatchSelectionEvent p).discountedPrice =
      mathRound
        (if daysBetween s e ≥ 28 ∧ truthy rules.discount_month = true then
          jsMul (sumLoop rules e s (JSNumber.fin 0))
            (jsSub (toNumber 1) (toNumber (rules.discount_month.getD 0)))
        else if daysBetween s e ≥ 7 ∧ truthy rules.discount_week = true then
          jsMul (sumLoop rules e s (JSNumber.fin 0))
            (jsSub (toNumber 1) (toNumber (rules.discount_week.getD 0)))
        else sumLoop rules e s (JSNumber.fin 0)) ∧
    (dispatchSelectionEvent p).isComplete = true := by
  unfold dispatchSelectionEvent
  simp only [hs, he, hr, nights_eq, and_self]

theorem foldl_default_int (rules : PriceRules) (s : Date) (k : Int) (n : Nat)
    (h1 : rules.days = none) (h2 : rules.dates = none) (hk : rules.default = (k : ℚ))
    (hb : (n : Int) * |k| ≤ 2 ^ 53) :
    ∀ i, i ≤ n →
      (List.range i).foldl
        (fun t j => jsAdd t (toNumber (priceOf rules ⟨s.day + j⟩))) (JSNumber.fin 0) =
      JSNumber.fin (((i : Int) * k : Int) : ℚ) := by
  intro i
  induction i with
  | zero => intro _; simp
  | succ i ih =>
    intro hi
    rw [List.range_succ, List.foldl_append, ih (by omega)]
    simp only [List.foldl_cons, List.foldl_nil, priceOf_default_only _ _ h1 h2, hk]
    have hkb : |k| ≤ 2 ^ 53 := by
      have hn : (1 : Int) ≤ n := by omega
      have := abs_nonneg k
      nlinarith
    have hik : |((i : Int) + 1) * k| ≤ 2 ^ 53 := by
      rw [abs_mul, abs_of_nonneg (by omega : (0 : Int) ≤ (i : Int) + 1)]
      have h3 : ((i : Int) + 1) ≤ n := by omega
      have := abs_nonneg k
      nlinarith
    rw [toNumber_intCast k hkb]
    show toNumber ((((i : Int) * k : Int) : ℚ) + (k : ℚ)) = _
    have e1 : ((((i : Int) * k : Int) : ℚ) + (k : ℚ)) = ((((i : Int) + 1) * k : Int) : ℚ) := by
      push_cast; ring
    rw [e1, toNumber_intCast _ hik]
    push_cast
    rfl

theorem fullPrice_default_int (p : Picker) (s e : Date) (rules : PriceRules) (k : Int)
    (hs : p.startDate = some s) (he : p.endDate = some e) (hr : p.priceRules = some rules)
    (h1 : rules.days = none) (h2 : rules.dates = none) (hk : rules.default = (k : ℚ))
    (hb : ((e.day - s.day : Nat) : Int) * |k| ≤ 2 ^ 53) :
    (dispatchSelectionEvent p).fullPrice =
      JSNumber.fin ((((e.day - s.day : Nat) : Int) * k : Int) : ℚ) := by
  rw [(dispatch_complete p s e rules hs he hr).2.1, sumLoop_eq rules e (e.day - s.day) s _ rfl]
  exact foldl_default_int rules s k _ h1 h2 hk hb _ le_rfl

/-- Claim C8, amended. For a complete selection with the start before the end
and a price rule set, the event reports `nights` as the number of days from
start to end and `fullPrice` as the total of the day prices over exactly that
many consecutive days beginning at the start (the end day is not charged),
added up in that order from 0 in double arithmetic; with a default-only rule
set whose default is an integer `k` with `nights * |k|` at most 2^53 the total
is exactly `nights * k`, and the stay from 2024-03-01 to 2024-03-04 at default
100 gives 3 nights and 300. -/
theorem dispatchSelectionEvent_fullPrice (p : Picker) (s e : Date) (rules : PriceRules)
    (hs : p.startDate = some s) (he : p.endDate = some e) (hr : p.priceRules = some rules)
    (hlt : s.day < e.day) :
    (dispatchSelectionEvent p).nights = daysBetween s e ∧
    (((e.day - s.day : Nat) : Int) = (dispatchSelectionEvent p).nights) ∧
    (dispatchSelectionEvent p).fullPrice =
      (List.range (e.day - s.day)).foldl
        (fun total i => jsAdd total (toNumber (priceOf rules ⟨s.day + i⟩))) (JSNumber.fin 0) ∧
    (rules.days = none → rules.dates = none → ∀ k : Int, rules.default = (k : ℚ) →
      ((e.day - s.day : Nat) : Int) * |k| ≤ 2 ^ 53 →
      (dispatchSelectionEvent p).fullPrice =
        JSNumber.fin (((dispatchSelectionEvent p).nights * k : Int) : ℚ)) ∧
    ((dispatchSelectionEvent ⟨some (newDate 2024 2 1), some (newDate 2024 2 4), [],
      some ⟨100, none, none, none, none⟩, 3, 28⟩).nights = 3 ∧
      (dispatchSelectionEvent ⟨some (newDate 2024 2 1), some (newDate 2024 2 4), [],
      some ⟨100, none, none, none, none⟩, 3, 28⟩).fullPrice = JSNumber.fin 300) := by
  obtain ⟨h1, h2, -, -⟩ := dispatch_complete p s e rules hs he hr
  have hn : ((e.day - s.day : Nat) : Int) = daysBetween s e := by
    unfold daysBetween; omega
  refine ⟨h1, by rw [h1, hn], by rw [h2, sumLoop_eq rules e (e.day - s.day) s _ rfl], ?_, ?_⟩
  · intro hd1 hd2 k hk hb
    rw [fullPrice_default_int p s e rules k hs he hr hd1 hd2 hk hb, h1, ← hn]
  · have hd : (newDate 2024 2 4).day - (newDate 2024 2 1).day = 3 := by decide
    have hb : (((newDate 2024 2 4).day - (newDate 2024 2 1).day : Nat) : Int) * |(100 : Int)|
        ≤ 2 ^ 53 := by rw [hd]; norm_num
    have hf := fullPrice_default_int
      ⟨some (newDate 2024 2 1), some (newDate 2024 2 4), [],
      some ⟨100, none, none, none, none⟩, 3, 28⟩
      (newDate 2024 2 1) (newDate 2024 2 4) ⟨100, none, none, none, none⟩ 100 rfl rfl rfl
      rfl rfl (by norm_num) hb
    refine ⟨?_, ?_⟩
    · rw [(dispatch_complete _ (newDate 2024 2 1) (newDate 2024 2 4)
        ⟨100, none, none, none, none⟩ rfl rfl rfl).1]
      decide
    · rw [hf, hd]
      norm_num

theorem dispatchSelectionEvent_fullPrice_witness :
    (newDate 2024 2 1).day < (newDate 2024 2 4).day ∧
    (dispatchSelectionEvent ⟨some (newDate 2024 2 1), some (newDate 2024 2 4), [],
      some ⟨100, none, none, none, none⟩, 3, 28⟩).fullPrice =
      (List.range ((newDate 2024 2 4).day - (newDate 2024 2 1).day)).foldl
        (fun total i => jsAdd total
          (toNumber (priceOf ⟨100, none, none, none, none⟩ ⟨(newDate 2024 2 1).day + i⟩)))
        (JSNumber.fin 0) :=
  ⟨by decide,
    (dispatchSelectionEvent_fullPrice
      ⟨some (newDate 2024 2 1), some (newDate 2024 2 4), [],
      some ⟨100, none, none, none, none⟩, 3, 28⟩
      (newDate 2024 2 1) (newDate 2024 2 4) ⟨100, none, none, none, none⟩ rfl rfl rfl
      (by decide)).2.2.1⟩

/-- Claim C8 as stated fails for a default that is not an integer: with the
double nearest to 19.99 as default and the six nights from 2024-03-01 to
2024-03-07, the total added up night by night is 119.93999999999998..., which
is neither six times the default exactly nor the double product 6 * 19.99
(119.94). -/
theorem dispatchSelectionEvent_fullPrice_inexact :
    double (1999 / 100) = (5626684784446013 / 281474976710656) ∧
    (dispatchSelectionEvent ⟨some (newDate 2024 2 1), some (newDate 2024 2 7), [],
      some ⟨double (1999 / 100), none, none, none, none⟩, 3, 28⟩).nights = 6 ∧
    (dispatchSelectionEvent ⟨some (newDate 2024 2 1), some (newDate 2024 2 7), [],
      some ⟨double (1999 / 100), none, none, none, none⟩, 3, 28⟩).fullPrice = JSNumber.fin (8440027176669019 / 70368744177664) ∧
    jsMul (toNumber 6) (toNumber (double (1999 / 100))) = JSNumber.fin (2110006794167255 / 17592186044416) ∧
    ((8440027176669019 / 70368744177664) : ℚ) ≠ 6 * (5626684784446013 / 281474976710656) ∧
    ((8440027176669019 / 70368744177664) : ℚ) ≠ (2110006794167255 / 17592186044416) := by
  have hD : double (1999 / 100) = (5626684784446013 / 281474976710656) :=
    double_eq _ _ 4 5626684784446013 (by norm_num [abs_of_pos, abs_of_neg]) (by norm_num [abs_of_pos, abs_of_neg])
      (by norm_num) (Or.inl (by norm_num [abs_lt])) (by norm_num)
  have hTD : toNumber (5626684784446013 / 281474976710656) = JSNumber.fin (5626684784446013 / 281474976710656) :=
    toNumber_of_double _ _
    (double_eq _ _ 4 5626684784446013 (by norm_num [abs_of_pos, abs_of_neg]) (by norm_num [abs_of_pos, abs_of_neg])
      (by norm_num) (Or.inl (by norm_num [abs_lt])) (by norm_num))
    (by norm_num) (by norm_num)
  have a1 : jsAdd (JSNumber.fin 0) (JSNumber.fin (5626684784446013 / 281474976710656)) = JSNumber.fin (5626684784446013 / 281474976710656) :=
    toNumber_of_double _ _
    (double_eq _ _ 4 5626684784446013 (by norm_num [abs_of_pos, abs_of_neg]) (by norm_num [abs_of_pos, abs_of_neg])
      (by norm_num) (Or.inl (by norm_num [abs_lt])) (by norm_num))
    (by norm_num) (by norm_num)
  have a2 : jsAdd (JSNumber.fin (5626684784446013 / 281474976710656)) (JSNumber.fin (5626684784446013 / 281474976710656)) = JSNumber.fin (5626684784446013 / 140737488355328) :=
    toNumber_of_double _ _
    (double_eq _ _ 5 5626684784446013 (by norm_num [abs_of_pos, abs_of_neg]) (by norm_num [abs_of_pos, abs_of_neg])
      (by norm_num) (Or.inl (by norm_num [abs_lt])) (by norm_num))
    (by norm_num) (by norm_num)
  have a3 : jsAdd (JSNumber.fin (5626684784446013 / 140737488355328)) (JSNumber.fin (5626684784446013 / 281474976710656)) = JSNumber.fin (2110006794167255 / 35184372088832) :=
    toNumber_of_double _ _
    (double_eq _ _ 5 8440027176669020 (by norm_num [abs_of_pos, abs_of_neg]) (by norm_num [abs_of_pos, abs_of_neg])
      (by norm_num) (Or.inr ⟨by norm_num [abs_of_pos, abs_of_neg], by norm_num⟩) (by norm_num))
    (by norm_num) (by norm_num)
  have a4 : jsAdd (JSNumber.fin (2110006794167255 / 35184372088832)) (JSNumber.fin (5626684784446013 / 281474976710656)) = JSNumber.fin (5626684784446013 / 70368744177664) :=
    toNumber_of_double _ _
    (double_eq _ _ 6 5626684784446013 (by norm_num [abs_of_pos, abs_of_neg]) (by norm_num [abs_of_pos, abs_of_neg])
      (by norm_num) (Or.inl (by norm_num [abs_lt])) (by norm_num))
    (by norm_num) (by norm_num)
  have a5 : jsAdd (JSNumber.fin (5626684784446013 / 70368744177664)) (JSNumber.fin (5626684784446013 / 281474976710656)) = JSNumber.fin (1758338995139379 / 17592186044416) :=
    toNumber_of_double _ _
    (double_eq _ _ 6 7033355980557516 (by norm_num [abs_of_pos, abs_of_neg]) (by norm_num [abs_of_pos, abs_of_neg])
      (by norm_num) (Or.inl (by norm_num [abs_lt])) (by norm_num))
    (by norm_num) (by norm_num)
  have a6 : jsAdd (JSNumber.fin (1758338995139379 / 17592186044416)) (JSNumber.fin (5626684784446013 / 281474976710656)) = JSNumber.fin (8440027176669019 / 70368744177664) :=
    toNumber_of_double _ _
    (double_eq _ _ 6 8440027176669019 (by norm_num [abs_of_pos, abs_of_neg]) (by norm_num [abs_of_pos, abs_of_neg])
      (by norm_num) (Or.inl (by norm_num [abs_lt])) (by norm_num))
    (by norm_num) (by norm_num)
  have hT6 : toNumber 6 = JSNumber.fin 6 :=
    toNumber_of_double _ _
    (double_eq _ _ 2 6755399441055744 (by norm_num [abs_of_pos, abs_of_neg]) (by norm_num [abs_of_pos, abs_of_neg])
      (by norm_num) (Or.inl (by norm_num [abs_lt])) (by norm_num))
    (by norm_num) (by norm_num)
  have hM : jsMul (JSNumber.fin 6) (JSNumber.fin (5626684784446013 / 281474976710656)) = JSNumber.fin (2110006794167255 / 17592186044416) :=
    toNumber_of_double _ _
    (double_eq _ _ 6 8440027176669020 (by norm_num [abs_of_pos, abs_of_neg]) (by norm_num [abs_of_pos, abs_of_neg])
      (by norm_num) (Or.inr ⟨by norm_num [abs_of_pos, abs_of_neg], by norm_num⟩) (by norm_num))
    (by norm_num) (by norm_num)
  have hd : (newDate 2024 2 7).day - (newDate 2024 2 1).day = 6 := by decide
  have hr6 : List.range 6 = [0, 1, 2, 3, 4, 5] := by decide
  have g := dispatch_complete
    ⟨some (newDate 2024 2 1), some (newDate 2024 2 7), [],
      some ⟨double (1999 / 100), none, none, none, none⟩, 3, 28⟩
    (newDate 2024 2 1) (newDate 2024 2 7) ⟨double (1999 / 100), none, none, none, none⟩
    rfl rfl rfl
  refine ⟨hD, ?_, ?_, ?_, by norm_num, by norm_num⟩
  · rw [g.1]; decide
  · rw [g.2.1, sumLoop_eq _ _ 6 _ _ hd, hr6]
    simp only [List.foldl_cons, List.foldl_nil, priceOf_default_only ⟨double (1999 / 100), none, none, none, none⟩ _ rfl rfl]
    rw [hD, hTD, a1, a2, a3, a4, a5, a6]
  · rw [hD, hTD, hT6, hM]

theorem discountedPrice_week_example :
    (dispatchSelectionEvent ⟨some (newDate 2024 2 1), some (newDate 2024 2 8), [],
      some ⟨100, none, none, some (double (1 / 10)), none⟩, 3, 28⟩).discountedPrice = JSNumber.fin 630 := by
  have hOne : toNumber 1 = JSNumber.fin 1 := by
    have h := toNumber_intCast 1 (by norm_num)
    simpa using h
  have aD : double (1 / 10) = (3602879701896397 / 36028797018963968) :=
    double_eq _ _ (-4) 7205759403792794 (by norm_num [abs_of_pos, abs_of_neg]) (by norm_num [abs_of_pos, abs_of_neg])
      (by norm_num) (Or.inl (by norm_num [abs_lt])) (by norm_num)
  have aTD : toNumber (3602879701896397 / 36028797018963968) = JSNumber.fin (3602879701896397 / 36028797018963968) :=
    toNumber_of_double _ _
    (double_eq _ _ (-4) 7205759403792794 (by norm_num [abs_of_pos, abs_of_neg]) (by norm_num [abs_of_pos, abs_of_neg])
      (by norm_num) (Or.inl (by norm_num [abs_lt])) (by norm_num))
    (by norm_num) (by norm_num)
  have aS : jsSub (JSNumber.fin 1) (JSNumber.fin (3602879701896397 / 36028797018963968)) = JSNumber.fin (8106479329266893 / 9007199254740992) :=
    toNumber_of_double _ _
    (double_eq _ _ (-1) 8106479329266893 (by norm_num [abs_of_pos, abs_of_neg]) (by norm_num [abs_of_pos, abs_of_neg])
      (by norm_num) (Or.inl (by norm_num [abs_lt])) (by norm_num))
    (by norm_num) (by norm_num)
  have aM : jsMul (JSNumber.fin 700) (JSNumber.fin (8106479329266893 / 9007199254740992)) = JSNumber.fin 630 :=
    toNumber_of_double _ _
    (double_eq _ _ 9 5541538603991040 (by norm_num [abs_of_pos, abs_of_neg]) (by norm_num [abs_of_pos, abs_of_neg])
      (by norm_num) (Or.inl (by norm_num [abs_lt])) (by norm_num))
    (by norm_num) (by norm_num)
  have aR : mathRound (JSNumber.fin 630) = JSNumber.fin 630 := by
    have h := mathRound_fin_eq 630 630 (by norm_num) (by norm_num)
    simpa using h
  have hd : (newDate 2024 2 8).day - (newDate 2024 2 1).day = 7 := by decide
  have hn : daysBetween (newDate 2024 2 1) (newDate 2024 2 8) = 7 := by decide
  have hb : (((newDate 2024 2 8).day - (newDate 2024 2 1).day : Nat) : Int) * |(100 : Int)|
      ≤ 2 ^ 53 := by rw [hd]; norm_num
  have g := dispatch_complete
    ⟨some (newDate 2024 2 1), some (newDate 2024 2 8), [],
      some ⟨100, none, none, some (double (1 / 10)), none⟩, 3, 28⟩
    (newDate 2024 2 1) (newDate 2024 2 8) ⟨100, none, none, some (double (1 / 10)), none⟩ rfl rfl rfl
  have hf := fullPrice_default_int
    ⟨some (newDate 2024 2 1), some (newDate 2024 2 8), [],
      some ⟨100, none, none, some (double (1 / 10)), none⟩, 3, 28⟩
    (newDate 2024 2 1) (newDate 2024 2 8) ⟨100, none, none, some (double (1 / 10)), none⟩ 100 rfl rfl rfl
    rfl rfl (by norm_num) hb
  rw [g.2.1, hd] at hf
  have hf2 : sumLoop ⟨100, none, none, some (double (1 / 10)), none⟩ (newDate 2024 2 8) (newDate 2024 2 1) (JSNumber.fin 0) =
      JSNumber.fin 700 := by rw [hf]; norm_num
  have ht : truthy (some (double (1 / 10))) = true := by
    rw [aD]; simp only [truthy]; norm_num
  rw [g.2.2.1, hn, hf2, if_neg (by decide), if_pos ⟨by decide, ht⟩]
  show mathRound (jsMul (JSNumber.fin 700)
    (jsSub (toNumber 1) (toNumber (double (1 / 10))))) = _
  rw [hOne, aD, aTD, aS, aM, aR]

theorem discountedPrice_month_example :
    (dispatchSelectionEvent ⟨some (newDate 2024 2 1), some (newDate 2024 2 31), [],
      some ⟨100, none, none, some (double (1 / 10)), some (double (1 / 5))⟩, 3, 28⟩).discountedPrice = JSNumber.fin 2400 := by
  have hOne : toNumber 1 = JSNumber.fin 1 := by
    have h := toNumber_intCast 1 (by norm_num)
    simpa using h
  have bD : double (1 / 5) = (3602879701896397 / 18014398509481984) :=
    double_eq _ _ (-3) 7205759403792794 (by norm_num [abs_of_pos, abs_of_neg]) (by norm_num [abs_of_pos, abs_of_neg])
      (by norm_num) (Or.inl (by norm_num [abs_lt])) (by norm_num)
  have bTD : toNumber (3602879701896397 / 18014398509481984) = JSNumber.fin (3602879701896397 / 18014398509481984) :=
    toNumber_of_double _ _
    (double_eq _ _ (-3) 7205759403792794 (by norm_num [abs_of_pos, abs_of_neg]) (by norm_num [abs_of_pos, abs_of_neg])
      (by norm_num) (Or.inl (by norm_num [abs_lt])) (by norm_num))
    (by norm_num) (by norm_num)
  have bS : jsSub (JSNumber.fin 1) (JSNumber.fin (3602879701896397 / 18014398509481984)) = JSNumber.fin (3602879701896397 / 4503599627370496) :=
    toNumber_of_double _ _
    (double_eq _ _ (-1) 7205759403792794 (by norm_num [abs_of_pos, abs_of_neg]) (by norm_num [abs_of_pos, abs_of_neg])
      (by norm_num) (Or.inr ⟨by norm_num [abs_of_pos, abs_of_neg], by norm_num⟩) (by norm_num))
    (by norm_num) (by norm_num)
  have bM : jsMul (JSNumber.fin 3000) (JSNumber.fin (3602879701896397 / 4503599627370496)) = JSNumber.fin 2400 :=
    toNumber_of_double _ _
    (double_eq _ _ 11 5277655813324800 (by norm_num [abs_of_pos, abs_of_neg]) (by norm_num [abs_of_pos, abs_of_neg])
      (by norm_num) (Or.inl (by norm_num [abs_lt])) (by norm_num))
    (by norm_num) (by norm_num)
  have bR : mathRound (JSNumber.fin 2400) = JSNumber.fin 2400 := by
    have h := mathRound_fin_eq 2400 2400 (by norm_num) (by norm_num)
    simpa using h
  have hd : (newDate 2024 2 31).day - (newDate 2024 2 1).day = 30 := by decide
  have hn : daysBetween (newDate 2024 2 1) (newDate 2024 2 31) = 30 := by decide
  have hb : (((newDate 2024 2 31).day - (newDate 2024 2 1).day : Nat) : Int) * |(100 : Int)|
      ≤ 2 ^ 53 := by rw [hd]; norm_num
  have g := dispatch_complete
    ⟨some (newDate 2024 2 1), some (newDate 2024 2 31), [],
      some ⟨100, none, none, some (double (1 / 10)), some (double (1 / 5))⟩, 3, 28⟩
    (newDate 2024 2 1) (newDate 2024 2 31) ⟨100, none, none, some (double (1 / 10)), some (double (1 / 5))⟩ rfl rfl rfl
  have hf := fullPrice_default_int
    ⟨some (newDate 2024 2 1), some (newDate 2024 2 31), [],
      some ⟨100, none, none, some (double (1 / 10)), some (double (1 / 5))⟩, 3, 28⟩
    (newDate 2024 2 1) (newDate 2024 2 31) ⟨100, none, none, some (double (1 / 10)), some (double (1 / 5))⟩ 100 rfl rfl rfl
    rfl rfl (by norm_num) hb
  rw [g.2.1, hd] at hf
  have hf2 : sumLoop ⟨100, none, none, some (double (1 / 10)), some (double (1 / 5))⟩ (newDate 2024 2 31) (newDate 2024 2 1) (JSNumber.fin 0) =
      JSNumber.fin 3000 := by rw [hf]; norm_num
  have ht : truthy (some (double (1 / 5))) = true := by
    rw [bD]; simp only [truthy]; norm_num
  rw [g.2.2.1, hn, hf2, if_pos ⟨by decide, ht⟩]
  show mathRound (jsMul (JSNumber.fin 3000)
    (jsSub (toNumber 1) (toNumber (double (1 / 5))))) = _
  rw [hOne, bD, bTD, bS, bM, bR]

/-- Claim C9, amended. For a complete selection and a price rule set,
`discountedPrice` is `Math.round` of the double product `fullPrice * (1 - r)`
(the difference and the product each rounded to the nearest double), where `r`
is `discount_month` when `nights` is at least 28 and `discount_month` is present
and not 0, else `discount_week` when `nights` is at least 7 and `discount_week`
is present and not 0, and with neither tier it is `Math.round` of `fullPrice`;
one tier applies, never both.  `Math.round` returns an integer within one half
of its finite argument, and `fullPrice` is the running total itself, not
rounded to an integer.  Seven nights at 100 with a weekly discount of 0.1 give
630; thirty nights with weekly 0.1 and monthly 0.2 give 2400, the monthly
discount alone. -/
theorem dispatchSelectionEvent_discount (p : Picker) (s e : Date) (rules : PriceRules)
    (hs : p.startDate = some s) (he : p.endDate = some e) (hr : p.priceRules = some rules) :
    (∀ m, (dispatchSelectionEvent p).nights ≥ 28 → rules.discount_month = some m → m ≠ 0 →
      (dispatchSelectionEvent p).discountedPrice =
        mathRound (jsMul (dispatchSelectionEvent p).fullPrice
          (jsSub (toNumber 1) (toNumber m)))) ∧
    (((dispatchSelectionEvent p).nights < 28 ∨ rules.discount_month = none ∨
        rules.discount_month = some 0) →
      ∀ w, (dispatchSelectionEvent p).nights ≥ 7 → rules.discount_week = some w → w ≠ 0 →
        (dispatchSelectionEvent p).discountedPrice =
          mathRound (jsMul (dispatchSelectionEvent p).fullPrice
            (jsSub (toNumber 1) (toNumber w)))) ∧
    (((dispatchSelectionEvent p).nights < 28 ∨ rules.discount_month = none ∨
        rules.discount_month = some 0) →
      ((dispatchSelectionEvent p).nights < 7 ∨ rules.discount_week = none ∨
        rules.discount_week = some 0) →
      (dispatchSelectionEvent p).discountedPrice =
        mathRound (dispatchSelectionEvent p).fullPrice) ∧
    (∀ y : ℚ, ∃ n : Int, mathRound (JSNumber.fin y) = JSNumber.fin n ∧
      |(n : ℚ) - y| ≤ 1 / 2) ∧
    (dispatchSelectionEvent p).fullPrice = sumLoop rules e s (JSNumber.fin 0) ∧
    (dispatchSelectionEvent ⟨some (newDate 2024 2 1), some (newDate 2024 2 8), [],
      some ⟨100, none, none, some (double (1 / 10)), none⟩, 3, 28⟩).discountedPrice = JSNumber.fin 630 ∧
    (dispatchSelectionEvent ⟨some (newDate 2024 2 1), some (newDate 2024 2 31), [],
      some ⟨100, none, none, some (double (1 / 10)), some (double (1 / 5))⟩, 3, 28⟩).discountedPrice = JSNumber.fin 2400 := by
  obtain ⟨h1, h2, h3, -⟩ := dispatch_complete p s e rules hs he hr
  rw [h1, h2, h3]
  refine ⟨?_, ?_, ?_, mathRound_nearest, rfl,
    discountedPrice_week_example, discountedPrice_month_example⟩
  · intro m hn hm hm0
    simp [hn, hm, truthy, hm0]
  · intro h w hn hw hw0
    have hc : ¬ (daysBetween s e ≥ 28 ∧ truthy rules.discount_month = true) := by
      rcases h with h | h | h
      · intro hc; omega
      · simp [h, truthy]
      · simp [h, truthy]
    rw [if_neg hc]
    simp [hn, hw, truthy, hw0]
  · intro h h'
    have hc : ¬ (daysBetween s e ≥ 28 ∧ truthy rules.discount_month = true) := by
      rcases h with h | h | h
      · intro hc; omega
      · simp [h, truthy]
      · simp [h, truthy]
    have hc' : ¬ (daysBetween s e ≥ 7 ∧ truthy rules.discount_week = true) := by
      rcases h' with h | h | h
      · intro hc; omega
      · simp [h, truthy]
      · simp [h, truthy]
    rw [if_neg hc, if_neg hc']

theorem dispatchSelectionEvent_discount_witness :
    (dispatchSelectionEvent ⟨some (newDate 2024 2 1), some (newDate 2024 2 31), [],
      some ⟨100, none, none, some (double (1 / 10)), some (double (1 / 5))⟩, 3, 28⟩).fullPrice =
      sumLoop ⟨100, none, none, some (double (1 / 10)), some (double (1 / 5))⟩
        (newDate 2024 2 31) (newDate 2024 2 1) (JSNumber.fin 0) :=
  (dispatchSelectionEvent_discount
    ⟨some (newDate 2024 2 1), some (newDate 2024 2 31), [],
      some ⟨100, none, none, some (double (1 / 10)), some (double (1 / 5))⟩, 3, 28⟩
    (newDate 2024 2 1) (newDate 2024 2 31)
    ⟨100, none, none, some (double (1 / 10)), some (double (1 / 5))⟩
    rfl rfl rfl).2.2.2.2.1

theorem zero_month_discount_part :
    (dispatchSelectionEvent ⟨some (newDate 2024 2 1), some (newDate 2024 2 31), [],
      some ⟨100, none, none, some (double (1 / 10)), some 0⟩, 3, 28⟩).nights = 30 ∧
    (dispatchSelectionEvent ⟨some (newDate 2024 2 1), some (newDate 2024 2 31), [],
      some ⟨100, none, none, some (double (1 / 10)), some 0⟩, 3, 28⟩).fullPrice = JSNumber.fin 3000 ∧
    (dispatchSelectionEvent ⟨some (newDate 2024 2 1), some (newDate 2024 2 31), [],
      some ⟨100, none, none, some (double (1 / 10)), some 0⟩, 3, 28⟩).discountedPrice = JSNumber.fin 2700 ∧
    mathRound (jsMul (JSNumber.fin 3000) (jsSub (toNumber 1) (toNumber 0)))
      = JSNumber.fin 3000 := by
  have hOne : toNumber 1 = JSNumber.fin 1 := by
    have h := toNumber_intCast 1 (by norm_num)
    simpa using h
  have zD : double (1 / 10) = (3602879701896397 / 36028797018963968) :=
    double_eq _ _ (-4) 7205759403792794 (by norm_num [abs_of_pos, abs_of_neg]) (by norm_num [abs_of_pos, abs_of_neg])
      (by norm_num) (Or.inl (by norm_num [abs_lt])) (by norm_num)
  have zTD : toNumber (3602879701896397 / 36028797018963968) = JSNumber.fin (3602879701896397 / 36028797018963968) :=
    toNumber_of_double _ _
    (double_eq _ _ (-4) 7205759403792794 (by norm_num [abs_of_pos, abs_of_neg]) (by norm_num [abs_of_pos, abs_of_neg])
      (by norm_num) (Or.inl (by norm_num [abs_lt])) (by norm_num))
    (by norm_num) (by norm_num)
  have zS : jsSub (JSNumber.fin 1) (JSNumber.fin (3602879701896397 / 36028797018963968)) = JSNumber.fin (8106479329266893 / 9007199254740992) :=
    toNumber_of_double _ _
    (double_eq _ _ (-1) 8106479329266893 (by norm_num [abs_of_pos, abs_of_neg]) (by norm_num [abs_of_pos, abs_of_neg])
      (by norm_num) (Or.inl (by norm_num [abs_lt])) (by norm_num))
    (by norm_num) (by norm_num)
  have zM : jsMul (JSNumber.fin 3000) (JSNumber.fin (8106479329266893 / 9007199254740992)) = JSNumber.fin 2700 :=
    toNumber_of_double _ _
    (double_eq _ _ 11 5937362789990400 (by norm_num [abs_of_pos, abs_of_neg]) (by norm_num [abs_of_pos, abs_of_neg])
      (by norm_num) (Or.inl (by norm_num [abs_lt])) (by norm_num))
    (by norm_num) (by norm_num)
  have zR : mathRound (JSNumber.fin 2700) = JSNumber.fin 2700 := by
    have h := mathRound_fin_eq 2700 2700 (by norm_num) (by norm_num)
    simpa using h
  have hd : (newDate 2024 2 31).day - (newDate 2024 2 1).day = 30 := by decide
  have hn : daysBetween (newDate 2024 2 1) (newDate 2024 2 31) = 30 := by decide
  have hb : (((newDate 2024 2 31).day - (newDate 2024 2 1).day : Nat) : Int) * |(100 : Int)|
      ≤ 2 ^ 53 := by rw [hd]; norm_num
  have g := dispatch_complete
    ⟨some (newDate 2024 2 1), some (newDate 2024 2 31), [],
      some ⟨100, none, none, some (double (1 / 10)), some 0⟩, 3, 28⟩
    (newDate 2024 2 1) (newDate 2024 2 31) ⟨100, none, none, some (double (1 / 10)), some 0⟩ rfl rfl rfl
  have hf := fullPrice_default_int
    ⟨some (newDate 2024 2 1), some (newDate 2024 2 31), [],
      some ⟨100, none, none, some (double (1 / 10)), some 0⟩, 3, 28⟩
    (newDate 2024 2 1) (newDate 2024 2 31) ⟨100, none, none, some (double (1 / 10)), some 0⟩ 100 rfl rfl rfl
    rfl rfl (by norm_num) hb
  rw [g.2.1, hd] at hf
  have hf2 : sumLoop ⟨100, none, none, some (double (1 / 10)), some 0⟩ (newDate 2024 2 31) (newDate 2024 2 1) (JSNumber.fin 0) =
      JSNumber.fin 3000 := by rw [hf]; norm_num
  have hZero : toNumber 0 = JSNumber.fin 0 := by
    have h := toNumber_intCast 0 (by norm_num)
    simpa using h
  have hS0 : jsSub (JSNumber.fin 1) (JSNumber.fin 0) = JSNumber.fin 1 :=
    toNumber_of_double _ _
    (double_eq _ _ 0 4503599627370496 (by norm_num [abs_of_pos, abs_of_neg]) (by norm_num [abs_of_pos, abs_of_neg])
      (by norm_num) (Or.inl (by norm_num [abs_lt])) (by norm_num))
    (by norm_num) (by norm_num)
  have hM0 : jsMul (JSNumber.fin 3000) (JSNumber.fin 1) = JSNumber.fin 3000 :=
    toNumber_of_double _ _
    (double_eq _ _ 11 6597069766656000 (by norm_num [abs_of_pos, abs_of_neg]) (by norm_num [abs_of_pos, abs_of_neg])
      (by norm_num) (Or.inl (by norm_num [abs_lt])) (by norm_num))
    (by norm_num) (by norm_num)
  have hR0 : mathRound (JSNumber.fin 3000) = JSNumber.fin 3000 := by
    have h := mathRound_fin_eq 3000 3000 (by norm_num) (by norm_num)
    simpa using h
  refine ⟨by rw [g.1, hn], by rw [g.2.1, hf2], ?_, ?_⟩
  · have ht : truthy (some (double (1 / 10))) = true := by
      rw [zD]; simp only [truthy]; norm_num
    have hz : truthy (some (0 : ℚ)) = false := by simp [truthy]
    rw [g.2.2.1, hn, hf2, if_neg (by rintro ⟨-, h⟩; rw [hz] at h; exact absurd h (by decide)),
      if_pos ⟨by decide, ht⟩]
    show mathRound (jsMul (JSNumber.fin 3000)
      (jsSub (toNumber 1) (toNumber (double (1 / 10))))) = _
    rw [hOne, zD, zTD, zS, zM, zR]
  · rw [hOne, hZero, hS0, hM0, hR0]

theorem rounded_product_part :
    double (3 / 10) = (5404319552844595 / 18014398509481984) ∧
    (dispatchSelectionEvent ⟨some (newDate 2024 2 1), some (newDate 2024 2 8), [],
      some ⟨25, none, none, some (double (3 / 10)), none⟩, 3, 28⟩).fullPrice = JSNumber.fin 175 ∧
    (dispatchSelectionEvent ⟨some (newDate 2024 2 1), some (newDate 2024 2 8), [],
      some ⟨25, none, none, some (double (3 / 10)), none⟩, 3, 28⟩).discountedPrice = JSNumber.fin 122 ∧
    ⌊(175 : ℚ) * (1 - (5404319552844595 / 18014398509481984)) + 1 / 2⌋ = 123 := by
  have hOne : toNumber 1 = JSNumber.fin 1 := by
    have h := toNumber_intCast 1 (by norm_num)
    simpa using h
  have rD : double (3 / 10) = (5404319552844595 / 18014398509481984) :=
    double_eq _ _ (-2) 5404319552844595 (by norm_num [abs_of_pos, abs_of_neg]) (by norm_num [abs_of_pos, abs_of_neg])
      (by norm_num) (Or.inl (by norm_num [abs_lt])) (by norm_num)
  have rTD : toNumber (5404319552844595 / 18014398509481984) = JSNumber.fin (5404319552844595 / 18014398509481984) :=
    toNumber_of_double _ _
    (double_eq _ _ (-2) 5404319552844595 (by norm_num [abs_of_pos, abs_of_neg]) (by norm_num [abs_of_pos, abs_of_neg])
      (by norm_num) (Or.inl (by norm_num [abs_lt])) (by norm_num))
    (by norm_num) (by norm_num)
  have rS : jsSub (JSNumber.fin 1) (JSNumber.fin (5404319552844595 / 18014398509481984)) = JSNumber.fin (3152519739159347 / 4503599627370496) :=
    toNumber_of_double _ _
    (double_eq _ _ (-1) 6305039478318694 (by norm_num [abs_of_pos, abs_of_neg]) (by norm_num [abs_of_pos, abs_of_neg])
      (by norm_num) (Or.inr ⟨by norm_num [abs_of_pos, abs_of_neg], by norm_num⟩) (by norm_num))
    (by norm_num) (by norm_num)
  have rM : jsMul (JSNumber.fin 175) (JSNumber.fin (3152519739159347 / 4503599627370496)) = JSNumber.fin (8620171161763839 / 70368744177664) :=
    toNumber_of_double _ _
    (double_eq _ _ 6 8620171161763839 (by norm_num [abs_of_pos, abs_of_neg]) (by norm_num [abs_of_pos, abs_of_neg])
      (by norm_num) (Or.inl (by norm_num [abs_lt])) (by norm_num))
    (by norm_num) (by norm_num)
  have rR : mathRound (JSNumber.fin (8620171161763839 / 70368744177664)) = JSNumber.fin 122 := by
    have h := mathRound_fin_eq (8620171161763839 / 70368744177664) 122 (by norm_num) (by norm_num)
    simpa using h
  have hd : (newDate 2024 2 8).day - (newDate 2024 2 1).day = 7 := by decide
  have hn : daysBetween (newDate 2024 2 1) (newDate 2024 2 8) = 7 := by decide
  have hb : (((newDate 2024 2 8).day - (newDate 2024 2 1).day : Nat) : Int) * |(25 : Int)|
      ≤ 2 ^ 53 := by rw [hd]; norm_num
  have g := dispatch_complete
    ⟨some (newDate 2024 2 1), some (newDate 2024 2 8), [],
      some ⟨25, none, none, some (double (3 / 10)), none⟩, 3, 28⟩
    (newDate 2024 2 1) (newDate 2024 2 8) ⟨25, none, none, some (double (3 / 10)), none⟩ rfl rfl rfl
  have hf := fullPrice_default_int
    ⟨some (newDate 2024 2 1), some (newDate 2024 2 8), [],
      some ⟨25, none, none, some (double (3 / 10)), none⟩, 3, 28⟩
    (newDate 2024 2 1) (newDate 2024 2 8) ⟨25, none, none, some (double (3 / 10)), none⟩ 25 rfl rfl rfl
    rfl rfl (by norm_num) hb
  rw [g.2.1, hd] at hf
  have hf2 : sumLoop ⟨25, none, none, some (double (3 / 10)), none⟩ (newDate 2024 2 8) (newDate 2024 2 1) (JSNumber.fin 0) =
      JSNumber.fin 175 := by rw [hf]; norm_num
  refine ⟨rD, by rw [g.2.1, hf2], ?_, ?_⟩
  · have ht : truthy (some (double (3 / 10))) = true := by
      rw [rD]; simp only [truthy]; norm_num
    rw [g.2.2.1, hn, hf2, if_neg (by decide), if_pos ⟨by decide, ht⟩]
    show mathRound (jsMul (JSNumber.fin 175)
      (jsSub (toNumber 1) (toNumber (double (3 / 10))))) = _
    rw [hOne, rD, rTD, rS, rM, rR]
  · rw [Int.floor_eq_iff]
    constructor <;> norm_num

/-- Claim C9 as stated fails in two ways.  When `discount_month` is present but
0, thirty nights at 100 with `discount_week` 0.1 get the weekly discount (2700)
where the claim takes the monthly rate 0 (3000).  And the result is the rounded
double product, not the rounded exact product: seven nights at 25 with
`discount_week` 0.3 give 175 * (1 - 0.3) = 122.49999999999999 in doubles and so
122, while the exact product with that double 0.3 is above 122.5 and rounds to
123. -/
theorem dispatchSelectionEvent_zero_month_discount :
    ((dispatchSelectionEvent ⟨some (newDate 2024 2 1), some (newDate 2024 2 31), [],
      some ⟨100, none, none, some (double (1 / 10)), some 0⟩, 3, 28⟩).nights = 30 ∧
      (dispatchSelectionEvent ⟨some (newDate 2024 2 1), some (newDate 2024 2 31), [],
      some ⟨100, none, none, some (double (1 / 10)), some 0⟩, 3, 28⟩).fullPrice = JSNumber.fin 3000 ∧
      (dispatchSelectionEvent ⟨some (newDate 2024 2 1), some (newDate 2024 2 31), [],
      some ⟨100, none, none, some (double (1 / 10)), some 0⟩, 3, 28⟩).discountedPrice = JSNumber.fin 2700 ∧
      mathRound (jsMul (JSNumber.fin 3000) (jsSub (toNumber 1) (toNumber 0)))
        = JSNumber.fin 3000) ∧
    (double (3 / 10) = (5404319552844595 / 18014398509481984) ∧
      (dispatchSelectionEvent ⟨some (newDate 2024 2 1), some (newDate 2024 2 8), [],
      some ⟨25, none, none, some (double (3 / 10)), none⟩, 3, 28⟩).fullPrice = JSNumber.fin 175 ∧
      (dispatchSelectionEvent ⟨some (newDate 2024 2 1), some (newDate 2024 2 8), [],
      some ⟨25, none, none, some (double (3 / 10)), none⟩, 3, 28⟩).discountedPrice = JSNumber.fin 122 ∧
      ⌊(175 : ℚ) * (1 - (5404319552844595 / 18014398509481984)) + 1 / 2⌋ = 123) :=
  ⟨zero_month_discount_part, rounded_product_part⟩

/-! ## Accepted ranges -/

theorem getFullYear_mono (a b : Date) (h : a.day ≤ b.day) : a.getFullYear ≤ b.getFullYear := by
  rcases Nat.lt_or_ge a.day b.day with h1 | h1
  · have hk := key_mono a b h1
    have hma := getMonth_le a
    have hmb := getMonth_le b
    have hda := getDate_bounds a
    have hdb := getDate_bounds b
    unfold Date.key at hk
    omega
  · have hab : a = b := (date_eq_iff a b).2 (by omega)
    rw [hab]

theorem fourDigitYear_between (s x e : Date) (hs : FourDigitYear s) (he : FourDigitYear e)
    (h1 : s.day ≤ x.day) (h2 : x.day ≤ e.day) : FourDigitYear x :=
  ⟨le_trans hs.1 (getFullYear_mono s x h1), le_trans (getFullYear_mono x e h2) he.2⟩

theorem busyLoop_clear (d : Date) (hd : FourDigitYear d) (l : List (Date × Date))
    (st : Status)
    (hl : ∀ i ∈ l, FourDigitYear i.1 ∧ FourDigitYear i.2 ∧ i.1.day ≤ i.2.day)
    (hfree : ∀ i ∈ l, d.day < i.1.day ∨ i.2.day < d.day) :
    busyLoop (toLocalISO d) st (toBusyDates l) = st := by
  induction l generalizing st with
  | nil => rfl
  | cons i l ih =>
    have hi := hl i (List.mem_cons_self _ _)
    have hf := hfree i (List.mem_cons_self _ _)
    have e1 : ¬ d.day = i.1.day := by omega
    have e2 : ¬ d.day = i.2.day := by omega
    have e3 : ¬ (i.1.day < d.day ∧ d.day < i.2.day) := by omega
    rw [busyLoop_cons_calendar d i _ st hd hi.1 hi.2.1]
    simp only [e1, e2, e3, false_and, if_false]
    exact ih st (fun j hj => hl j (List.mem_cons_of_mem _ hj))
      (fun j hj => hfree j (List.mem_cons_of_mem _ hj))

theorem accepted_iff (p : Picker) (s e : Date) (hs : p.startDate = some s)
    (he : p.endDate = none) :
    (handleDateClick p e).endDate = some e ↔
      (s.day ≤ e.day ∧ p.minStayDays ≤ daysBetween s e ∧ daysBetween s e ≤ p.maxStayDays ∧
        hasOverlap p.busyDates s e = false) := by
  have key := handleDateClick_selection p e
  rw [hs, he] at key
  simp only [selectDaySpec] at key
  by_cases hc : s.day ≤ e.day ∧ p.minStayDays ≤ daysBetween s e ∧
      daysBetween s e ≤ p.maxStayDays ∧ hasOverlap p.busyDates s e = false
  · rw [if_pos hc] at key
    simp only [Prod.mk.injEq] at key
    exact ⟨fun _ => hc, fun _ => key.2⟩
  · rw [if_neg hc] at key
    simp only [Prod.mk.injEq] at key
    constructor
    · intro h
      rw [key.2] at h
      exact absurd h (by simp)
    · intro h
      exact absurd h hc

theorem separated_of_no_overlap (l : List (Date × Date)) (s e : Date)
    (hl : ∀ i ∈ l, FourDigitYear i.1 ∧ FourDigitYear i.2)
    (h4s : FourDigitYear s) (h4e : FourDigitYear e)
    (hno : hasOverlap (toBusyDates l) s e = false) :
    ∀ i ∈ l, i.2.day ≤ s.day ∨ e.day ≤ i.1.day := by
  intro i hi
  by_contra hcon
  have h1 : s.day < i.2.day := by omega
  have h2 : i.1.day < e.day := by omega
  have htrue : hasOverlap (toBusyDates l) s e = true := by
    rw [hasOverlap_iff]
    refine ⟨busyRange i.1 i.2, List.mem_map.2 ⟨i, hi, rfl⟩, ?_, ?_⟩
    · exact (jsLt_toLocalISO_iff s i.2 h4s (hl i hi).2).2 h1
    · exact (jsLt_toLocalISO_iff i.1 e (hl i hi).1 h4e).2 h2
  rw [htrue] at hno
  exact absurd hno (by simp)

/-- Claim C11, amended. When `handleDateClick` completes a partial selection
from `s` to `e` against busy intervals with start not after end, all years
having four digits, every day strictly between `s` and `e` has status none,
neither `s` nor `e` lies strictly inside a busy interval, and every busy
interval ends by `s` or starts from `e` on: the accepted range meets busy
intervals only at its own two endpoints. -/
theorem accepted_range_clear (p : Picker) (l : List (Date × Date)) (s e : Date)
    (hbusy : p.busyDates = toBusyDates l)
    (hl : ∀ i ∈ l, FourDigitYear i.1 ∧ FourDigitYear i.2 ∧ i.1.day ≤ i.2.day)
    (hs : p.startDate = some s) (he : p.endDate = none)
    (h4s : FourDigitYear s) (h4e : FourDigitYear e)
    (hacc : (handleDateClick p e).startDate = some s ∧
      (handleDateClick p e).endDate = some e) :
    (∀ x : Date, s.day < x.day → x.day < e.day → getBusyState p.busyDates x = Status.none) ∧
    (∀ i ∈ l, ¬ (i.1.day < s.day ∧ s.day < i.2.day)) ∧
    (∀ i ∈ l, ¬ (i.1.day < e.day ∧ e.day < i.2.day)) ∧
    (∀ i ∈ l, i.2.day ≤ s.day ∨ e.day ≤ i.1.day) := by
  obtain ⟨hse, -, -, hno⟩ := (accepted_iff p s e hs he).1 hacc.2
  rw [hbusy] at hno
  have hsep := separated_of_no_overlap l s e (fun i hi => ⟨(hl i hi).1, (hl i hi).2.1⟩)
    h4s h4e hno
  refine ⟨?_, ?_, ?_, hsep⟩
  · intro x h1 h2
    have h4x := fourDigitYear_between s x e h4s h4e (by omega) (by omega)
    rw [hbusy]
    unfold getBusyState
    apply busyLoop_clear x h4x l _ hl
    intro i hi
    have := hsep i hi
    have := (hl i hi).2.2
    omega
  · intro i hi
    have := hsep i hi
    omega
  · intro i hi
    have := hsep i hi
    omega

theorem accepted_range_clear_witness :
    (∀ i ∈ [(newDate 2024 1 25, newDate 2024 2 1), (newDate 2024 2 5, newDate 2024 2 10)],
      FourDigitYear i.1 ∧ FourDigitYear i.2 ∧ i.1.day ≤ i.2.day) ∧
    FourDigitYear (newDate 2024 2 1) ∧ FourDigitYear (newDate 2024 2 5) ∧
    ((handleDateClick ⟨some (newDate 2024 2 1), none,
        toBusyDates [(newDate 2024 1 25, newDate 2024 2 1), (newDate 2024 2 5, newDate 2024 2 10)],
        none, 3, 28⟩ (newDate 2024 2 5)).startDate = some (newDate 2024 2 1) ∧
      (handleDateClick ⟨some (newDate 2024 2 1), none,
        toBusyDates [(newDate 2024 1 25, newDate 2024 2 1), (newDate 2024 2 5, newDate 2024 2 10)],
        none, 3, 28⟩ (newDate 2024 2 5)).endDate = some (newDate 2024 2 5)) ∧
    getBusyState
      (toBusyDates [(newDate 2024 1 25, newDate 2024 2 1), (newDate 2024 2 5, newDate 2024 2 10)])
      (newDate 2024 2 3) = Status.none := by
  have hsel := handleDateClick_selection ⟨some (newDate 2024 2 1), none,
    toBusyDates [(newDate 2024 1 25, newDate 2024 2 1), (newDate 2024 2 5, newDate 2024 2 10)],
    none, 3, 28⟩ (newDate 2024 2 5)
  have hval : selectDaySpec
      (toBusyDates [(newDate 2024 1 25, newDate 2024 2 1), (newDate 2024 2 5, newDate 2024 2 10)])
      3 28 (some (newDate 2024 2 1), none) (newDate 2024 2 5) =
      (some (newDate 2024 2 1), some (newDate 2024 2 5)) := by decide
  rw [hval] at hsel
  simp only [Prod.mk.injEq] at hsel
  exact ⟨by decide, by decide, by decide, hsel,
    (accepted_range_clear _
      [(newDate 2024 1 25, newDate 2024 2 1), (newDate 2024 2 5, newDate 2024 2 10)]
      (newDate 2024 2 1) (newDate 2024 2 5) rfl (by decide) rfl rfl (by decide) (by decide)
      hsel).1 (newDate 2024 2 3) (by decide) (by decide)⟩

/-- Claim C11 as stated fails across the end of year 9999: the stay from
9999-12-20 to 10000-01-05 is accepted although the busy interval 9999-12-25 to
9999-12-28 lies inside it, because the string 10000-01-05 sorts before
9999-12-25; the day 9999-12-26 inside the accepted range is full. -/
theorem accepted_range_year_10000 :
    toLocalISO (newDate 9999 11 20) = "9999-12-20" ∧
    toLocalISO (newDate 10000 0 5) = "10000-01-05" ∧
    toBusyDates [(newDate 9999 11 25, newDate 9999 11 28)] = [⟨"9999-12-25", "9999-12-28"⟩] ∧
    (handleDateClick ⟨some (newDate 9999 11 20), none,
        toBusyDates [(newDate 9999 11 25, newDate 9999 11 28)], none, 3, 28⟩
        (newDate 10000 0 5)).startDate = some (newDate 9999 11 20) ∧
    (handleDateClick ⟨some (newDate 9999 11 20), none,
        toBusyDates [(newDate 9999 11 25, newDate 9999 11 28)], none, 3, 28⟩
        (newDate 10000 0 5)).endDate = some (newDate 10000 0 5) ∧
    (newDate 9999 11 20).day < (newDate 9999 11 26).day ∧
    (newDate 9999 11 26).day < (newDate 10000 0 5).day ∧
    getBusyState (toBusyDates [(newDate 9999 11 25, newDate 9999 11 28)]) (newDate 9999 11 26)
      = Status.full := by
  have hsel := handleDateClick_selection ⟨some (newDate 9999 11 20), none,
    toBusyDates [(newDate 9999 11 25, newDate 9999 11 28)], none, 3, 28⟩ (newDate 10000 0 5)
  have hval : selectDaySpec (toBusyDates [(newDate 9999 11 25, newDate 9999 11 28)])
      3 28 (some (newDate 9999 11 20), none) (newDate 10000 0 5) =
      (some (newDate 9999 11 20), some (newDate 10000 0 5)) := by decide
  rw [hval] at hsel
  simp only [Prod.mk.injEq] at hsel
  exact ⟨by decide, by decide, by decide, hsel.1, hsel.2, by decide, by decide, by decide⟩


end StrDateRangePicker
